import Mathlib

set_option maxRecDepth 8000

/-
Verification development for the MPM (Material Point Method) core of the
mpm-js repository: `src/mpm/Grid.ts` and `src/mpm/MPMSystem.ts`.

The embedding is a shallow translation of the TypeScript source into Lean.
JavaScript numbers are modelled as rationals (every finite double is a
rational, and all constants appearing in the source are dyadic), vectors as
records of three rationals, `THREE.Matrix3` as a record of nine rationals in
row-major order (the order of the arguments of `Matrix3.set`).  The mutable
cell array of the grid is modelled as a `List Cell` threaded through the
step phases, and `THREE`'s mutating vector/matrix methods are translated to
the pure value they leave in their target.
-/

/-- 3-component vector of rationals, modelling `THREE.Vector3`. -/
structure Vec3 where
  x : ℚ
  y : ℚ
  z : ℚ
deriving DecidableEq, Repr

def Vec3.zero : Vec3 := ⟨0, 0, 0⟩

def Vec3.add (a b : Vec3) : Vec3 := ⟨a.x + b.x, a.y + b.y, a.z + b.z⟩

def Vec3.sub (a b : Vec3) : Vec3 := ⟨a.x - b.x, a.y - b.y, a.z - b.z⟩

/-- Componentwise product, `THREE.Vector3.multiply`. -/
def Vec3.hmul (a b : Vec3) : Vec3 := ⟨a.x * b.x, a.y * b.y, a.z * b.z⟩

/-- Componentwise quotient, `THREE.Vector3.divide`. -/
def Vec3.hdiv (a b : Vec3) : Vec3 := ⟨a.x / b.x, a.y / b.y, a.z / b.z⟩

/-- `THREE.Vector3.multiplyScalar`. -/
def Vec3.smul (a : Vec3) (s : ℚ) : Vec3 := ⟨a.x * s, a.y * s, a.z * s⟩

/-- Componentwise maximum, `THREE.Vector3.max`. -/
def Vec3.vmax (a b : Vec3) : Vec3 := ⟨max a.x b.x, max a.y b.y, max a.z b.z⟩

/-- Componentwise minimum, `THREE.Vector3.min`. -/
def Vec3.vmin (a b : Vec3) : Vec3 := ⟨min a.x b.x, min a.y b.y, min a.z b.z⟩

/-- Integer index triple (grid cell coordinates may be negative). -/
structure IVec3 where
  x : ℤ
  y : ℤ
  z : ℤ
deriving DecidableEq, Repr

/-- 3x3 rational matrix, entries in row-major order as in the argument list
of `THREE.Matrix3.set(n11, n12, n13, n21, n22, n23, n31, n32, n33)`. -/
structure Mat3 where
  m11 : ℚ
  m12 : ℚ
  m13 : ℚ
  m21 : ℚ
  m22 : ℚ
  m23 : ℚ
  m31 : ℚ
  m32 : ℚ
  m33 : ℚ
deriving DecidableEq, Repr

def Mat3.zero : Mat3 := ⟨0, 0, 0, 0, 0, 0, 0, 0, 0⟩

/-- Matrix product `a * b`, `THREE.Matrix3.multiply(b)` on target `a`. -/
def Mat3.mulMat (a b : Mat3) : Mat3 :=
  ⟨a.m11 * b.m11 + a.m12 * b.m21 + a.m13 * b.m31,
   a.m11 * b.m12 + a.m12 * b.m22 + a.m13 * b.m32,
   a.m11 * b.m13 + a.m12 * b.m23 + a.m13 * b.m33,
   a.m21 * b.m11 + a.m22 * b.m21 + a.m23 * b.m31,
   a.m21 * b.m12 + a.m22 * b.m22 + a.m23 * b.m32,
   a.m21 * b.m13 + a.m22 * b.m23 + a.m23 * b.m33,
   a.m31 * b.m11 + a.m32 * b.m21 + a.m33 * b.m31,
   a.m31 * b.m12 + a.m32 * b.m22 + a.m33 * b.m32,
   a.m31 * b.m13 + a.m32 * b.m23 + a.m33 * b.m33⟩

/-- Matrix-vector product, `THREE.Vector3.applyMatrix3(m)`. -/
def Mat3.mulVec (m : Mat3) (v : Vec3) : Vec3 :=
  ⟨m.m11 * v.x + m.m12 * v.y + m.m13 * v.z,
   m.m21 * v.x + m.m22 * v.y + m.m23 * v.z,
   m.m31 * v.x + m.m32 * v.y + m.m33 * v.z⟩

def Mat3.addMat (a b : Mat3) : Mat3 :=
  ⟨a.m11 + b.m11, a.m12 + b.m12, a.m13 + b.m13,
   a.m21 + b.m21, a.m22 + b.m22, a.m23 + b.m23,
   a.m31 + b.m31, a.m32 + b.m32, a.m33 + b.m33⟩

def Mat3.smulMat (m : Mat3) (s : ℚ) : Mat3 :=
  ⟨m.m11 * s, m.m12 * s, m.m13 * s,
   m.m21 * s, m.m22 * s, m.m23 * s,
   m.m31 * s, m.m32 * s, m.m33 * s⟩

def Mat3.det (m : Mat3) : ℚ :=
  m.m11 * (m.m33 * m.m22 - m.m32 * m.m23) +
  m.m21 * (m.m32 * m.m13 - m.m33 * m.m12) +
  m.m31 * (m.m23 * m.m12 - m.m22 * m.m13)

/-- `THREE.Matrix3.invert`: the adjugate divided by the determinant, with the
zero matrix returned when the determinant is zero. -/
def Mat3.inv (m : Mat3) : Mat3 :=
  let d := m.det
  if d = 0 then Mat3.zero
  else
    ⟨(m.m33 * m.m22 - m.m32 * m.m23) / d,
     (m.m32 * m.m13 - m.m33 * m.m12) / d,
     (m.m23 * m.m12 - m.m22 * m.m13) / d,
     (m.m31 * m.m23 - m.m33 * m.m21) / d,
     (m.m33 * m.m11 - m.m31 * m.m13) / d,
     (m.m21 * m.m13 - m.m23 * m.m11) / d,
     (m.m32 * m.m21 - m.m31 * m.m22) / d,
     (m.m31 * m.m12 - m.m32 * m.m11) / d,
     (m.m22 * m.m11 - m.m21 * m.m12) / d⟩

/-- Outer product of two vectors, the local helper `outerMulVec3` of
`MPMSystem._gridToParticle`. -/
def outerMulVec3 (v1 v2 : Vec3) : Mat3 :=
  ⟨v1.x * v2.x, v1.x * v2.y, v1.x * v2.z,
   v1.y * v2.x, v1.y * v2.y, v1.y * v2.z,
   v1.z * v2.x, v1.z * v2.y, v1.z * v2.z⟩

/-- Grid cell state (`Cell` in `Grid.ts`): mass, momentum `mv`, velocity and
force accumulator. -/
structure Cell where
  mass : ℚ
  mv : Vec3
  vel : Vec3
  force : Vec3
deriving DecidableEq, Repr

/-- A cleared cell: the state produced by `Cell.clear` and `Cell.reset`
(both zero every field) and by the `Cell` constructor. -/
def Cell.empty : Cell := ⟨0, Vec3.zero, Vec3.zero, Vec3.zero⟩

/-- The shape data of the background grid (`Grid` in `Grid.ts`): number of
cells per axis, the uniform cell size, and the left-bottom-back corner. The
cell array is threaded separately as a `List Cell`. -/
structure Grid where
  sizeX : ℤ
  sizeY : ℤ
  sizeZ : ℤ
  cellSize : ℚ
  origin : Vec3
deriving DecidableEq, Repr

/-- `Grid.is2D`: the grid is one cell deep in z. -/
def Grid.is2D (g : Grid) : Prop := g.sizeZ = 1

instance (g : Grid) : Decidable g.is2D :=
  inferInstanceAs (Decidable (g.sizeZ = 1))

/-- `Grid.cellDimensions` (`H`): z-dimension is `1` for a 2D grid. -/
def Grid.cellDimensions (g : Grid) : Vec3 :=
  ⟨g.cellSize, g.cellSize, if g.is2D then 1 else g.cellSize⟩

/-- `Grid.gridDimensions`: componentwise product of cell dimensions and
cell counts. -/
def Grid.gridDimensions (g : Grid) : Vec3 :=
  g.cellDimensions.hmul ⟨(g.sizeX : ℚ), (g.sizeY : ℚ), (g.sizeZ : ℚ)⟩

/-- Length of the grid's flat cell array (`size.x * size.y * size.z`). -/
def Grid.dataLength (g : Grid) : ℤ := g.sizeX * g.sizeY * g.sizeZ

/-- `Grid._toFlatIndex`. -/
def Grid.toFlatIndex (g : Grid) (xIdx yIdx zIdx : ℤ) : ℤ :=
  xIdx + yIdx * g.sizeX + zIdx * g.sizeX * g.sizeY

/-- `Grid.isValidCellIndex`: the flattened index lies in `[0, data.length)`;
the individual axis coordinates are not range-checked. -/
def Grid.isValidCellIndex (g : Grid) (xIdx yIdx zIdx : ℤ) : Bool :=
  decide (0 ≤ g.toFlatIndex xIdx yIdx zIdx) &&
    decide (g.toFlatIndex xIdx yIdx zIdx < g.dataLength)

/-- `Grid.cellIndexToPosition`: `(idx + 0.5) * cellSize + origin` on every
axis (`multiplyScalar(this.cellSize)` — the scalar cell size, not the
per-axis `cellDimensions`). -/
def Grid.cellIndexToPosition (g : Grid) (xIdx yIdx zIdx : ℤ) : Vec3 :=
  ⟨((xIdx : ℚ) + 1/2) * g.cellSize + g.origin.x,
   ((yIdx : ℚ) + 1/2) * g.cellSize + g.origin.y,
   ((zIdx : ℚ) + 1/2) * g.cellSize + g.origin.z⟩

/-- `Grid.cellPositionToIndex`: `floor((pos - origin) / cellDimensions)`. -/
def Grid.cellPositionToIndex (g : Grid) (pos : Vec3) : IVec3 :=
  let d := (pos.sub g.origin).hdiv g.cellDimensions
  ⟨Rat.floor d.x, Rat.floor d.y, Rat.floor d.z⟩

/-- `Grid.getNQuadratic`: quadratic B-spline basis evaluated at `|x|`. -/
def getNQuadratic (x : ℚ) : ℚ :=
  let a := |x|
  if a < 1/2 then 3/4 - a * a
  else if a < 3/2 then 1/2 * (3/2 - a) * (3/2 - a)
  else 0

/-- `Grid.getNQuadraticDerivative`: the source first replaces `x` by
`Math.abs(x)` and then branches on the sign of the (now non-negative)
value, so the `-(x - 1.5)` arm is unreachable for `0.5 <= |x| < 1.5`. -/
def getNQuadraticDerivative (x : ℚ) : ℚ :=
  let a := |x|
  if a < 1/2 then -2 * a
  else if a < 3/2 then (if a > 0 then a - 3/2 else -(a - 3/2))
  else 0

/-- `Grid.getWeight`: kernel weight of the neighbor cell at offset `delta`
from the base cell of `pos`; `0` for an invalid flattened index; the z
factor is omitted for 2D grids. -/
def Grid.getWeight (g : Grid) (pos : Vec3) (delta : IVec3) : ℚ :=
  let gi := g.cellPositionToIndex pos
  let ix := gi.x + delta.x
  let iy := gi.y + delta.y
  let iz := gi.z + delta.z
  if g.isValidCellIndex ix iy iz then
    let gridPos := g.cellIndexToPosition ix iy iz
    let dis := (pos.sub gridPos).hdiv g.cellDimensions
    getNQuadratic dis.x * getNQuadratic dis.y *
      (if g.is2D then 1 else getNQuadratic dis.z)
  else 0

/-- `Grid.getDQuadratic`: `Matrix3` with the componentwise square of `H`
scaled by `0.25` on the diagonal. -/
def Grid.getDQuadratic (g : Grid) : Mat3 :=
  let H := g.cellDimensions
  let v := (H.hmul H).smul (1/4)
  ⟨v.x, 0, 0, 0, v.y, 0, 0, 0, v.z⟩

/-- Material point (`Particle` in `MPMSystem.ts`). The constructor defaults
give zero velocity and a zero affine matrix `B`. -/
structure Particle where
  active : Bool
  mass : ℚ
  pos : Vec3
  vel : Vec3
  B : Mat3
deriving DecidableEq, Repr

/-- Gravity constant of `MPMSystem.ts`: `(0, -9.8, 0)`. -/
def GRAVITY : Vec3 := ⟨0, -(49/5), 0⟩

/-- Simulation state (`MPMSystem`): the grid shape, the grid's flat cell
array (`grid.data`), and the particle array. -/
structure MPMSystem where
  grid : Grid
  cells : List Cell
  particles : List Particle
deriving DecidableEq, Repr

/-- `Grid._initData`: a fresh array of `size.x * size.y * size.z` cleared
cells. -/
def initCells (g : Grid) : List Cell :=
  List.replicate g.dataLength.toNat Cell.empty

/-- The `MPMSystem` constructor: a `64 x 64 x 1` grid with the given cell
size, its corner at `(-32, -32, 0) * cellSize`, and no particles. -/
def mkMPMSystem (cellSize : ℚ) : MPMSystem :=
  let g : Grid :=
    { sizeX := 64, sizeY := 64, sizeZ := 1, cellSize := cellSize,
      origin := ⟨(-32) * cellSize, (-32) * cellSize, 0 * cellSize⟩ }
  { grid := g, cells := initCells g, particles := [] }

/-- The list of particles emitted by `MPMSystem.addParticles(min, max, size,
mass)`: per-axis counts `floor(extent / size)`, with the z count replaced by
`1` when `floor(extent.z / size) = 0` (the source tests the mutated
`boxDim.z` after `divideScalar(size).floor()` against `0`); loop order is
x outermost, then y, then z; each particle sits at
`min + (i + 0.5) * size` per axis, active, with the given mass. -/
def addParticlesList (pmin pmax : Vec3) (size mass : ℚ) : List Particle :=
  let boxDim := pmax.sub pmin
  let nx := Rat.floor (boxDim.x / size)
  let ny := Rat.floor (boxDim.y / size)
  let nz0 := Rat.floor (boxDim.z / size)
  let nz := if nz0 = 0 then 1 else nz0
  let halfSize := size / 2
  (List.range nx.toNat).flatMap (fun x =>
    (List.range ny.toNat).flatMap (fun y =>
      (List.range nz.toNat).map (fun z =>
        { active := true, mass := mass,
          pos := ⟨pmin.x + (x : ℚ) * size + halfSize,
                  pmin.y + (y : ℚ) * size + halfSize,
                  pmin.z + (z : ℚ) * size + halfSize⟩,
          vel := Vec3.zero, B := Mat3.zero })))

/-- `MPMSystem.addParticles`: pushes the emitted particles onto the
particle array. -/
def MPMSystem.addParticles (s : MPMSystem) (pmin pmax : Vec3)
    (size mass : ℚ) : MPMSystem :=
  { s with particles := s.particles ++ addParticlesList pmin pmax size mass }

/-- The neighbor offsets visited by the P2G and G2P loops: `gx` outermost
from `-1` to `1`, then `gy`, then `gz` (only `0` for a 2D grid). -/
def neighborDeltas (g : Grid) : List IVec3 :=
  let zs : List ℤ := if g.is2D then [0] else [-1, 0, 1]
  ([-1, 0, 1] : List ℤ).flatMap (fun gx =>
    ([-1, 0, 1] : List ℤ).flatMap (fun gy =>
      zs.map (fun gz => ⟨gx, gy, gz⟩)))

/-- One particle's scatter in `MPMSystem._particleToGrid`: for each neighbor
offset with a valid flattened index, accumulate `w * mass` into the cell's
mass and `w * mass * (vel + apic * (gridPos - pos))` into its momentum. -/
def particleScatter (g : Grid) (Dinv : Mat3) (p : Particle)
    (cells : List Cell) : List Cell :=
  let apic := p.B.mulMat Dinv
  let gi := g.cellPositionToIndex p.pos
  (neighborDeltas g).foldl (fun cs delta =>
    let ix := gi.x + delta.x
    let iy := gi.y + delta.y
    let iz := gi.z + delta.z
    if g.isValidCellIndex ix iy iz then
      let weight := g.getWeight p.pos delta
      let gridPos := g.cellIndexToPosition ix iy iz
      let n := (g.toFlatIndex ix iy iz).toNat
      let c := cs.getD n Cell.empty
      cs.set n
        { c with
          mass := c.mass + weight * p.mass,
          mv := c.mv.add
            (((apic.mulVec (gridPos.sub p.pos)).add p.vel).smul
              (weight * p.mass)) }
    else cs) cells

/-- `MPMSystem._particleToGrid`: `Dinv` is the inverted APIC `D` matrix;
each particle's `B` is overwritten by `B * Dinv` (the source's
`p.B.multiply(Dinv)` mutates `p.B`), and the particles scatter into the
cell array in order. -/
def particleToGrid (g : Grid) (ps : List Particle) (cells : List Cell) :
    List Particle × List Cell :=
  let Dinv := g.getDQuadratic.inv
  (ps.map (fun p => { p with B := p.B.mulMat Dinv }),
   ps.foldl (fun cs p => particleScatter g Dinv p cs) cells)

/-- The boundary-condition mask of `MPMSystem._updateGrid`: zero the
velocity component on any axis whose cell index is within two cells of
either end, except the z axis of a 2D grid. -/
def applyBoundary (g : Grid) (x y z : ℤ) (v : Vec3) : Vec3 :=
  let v1 := if x < 2 ∨ g.sizeX - 2 ≤ x then { v with x := 0 } else v
  let v2 := if y < 2 ∨ g.sizeY - 2 ≤ y then { v1 with y := 0 } else v1
  if ¬g.is2D ∧ (z < 2 ∨ g.sizeZ - 2 ≤ z) then { v2 with z := 0 } else v2

/-- The per-cell body of `MPMSystem._updateGrid` at cell index
`(x, y, z)`: clear non-positive-mass cells; otherwise set
`vel = mv / mass + dt * (force / mass + GRAVITY)` and apply the boundary
mask. -/
def updateCell (g : Grid) (dt : ℚ) (x y z : ℤ) (c : Cell) : Cell :=
  if c.mass ≤ 0 then Cell.empty
  else
    let v := (c.mv.smul (1 / c.mass)).add
      (((c.force.smul (1 / c.mass)).add GRAVITY).smul dt)
    { c with vel := applyBoundary g x y z v }

/-- The triple loop order of `MPMSystem._updateGrid`: x outermost, then y,
then z, over `[0, size)` on each axis. -/
def cellTriples (g : Grid) : List (ℤ × ℤ × ℤ) :=
  (List.range g.sizeX.toNat).flatMap (fun x =>
    (List.range g.sizeY.toNat).flatMap (fun y =>
      (List.range g.sizeZ.toNat).map
        (fun z => (Int.ofNat x, Int.ofNat y, Int.ofNat z))))

/-- `MPMSystem._updateGrid`: apply `updateCell` to the cell at each visited
index. -/
def updateGrid (g : Grid) (dt : ℚ) (cells : List Cell) : List Cell :=
  (cellTriples g).foldl (fun cs t =>
    let n := (g.toFlatIndex t.1 t.2.1 t.2.2).toNat
    cs.set n (updateCell g dt t.1 t.2.1 t.2.2 (cs.getD n Cell.empty))) cells

/-- `MPMSystem._gridToParticle`: each particle gathers velocity and the
affine matrix from its valid neighbors, advects by `dt * vel`, and is
clamped componentwise into the grid bounds (`pos.max(bounds.min)` then
`pos.min(bounds.max)`). -/
def gridToParticle (g : Grid) (dt : ℚ) (cells : List Cell)
    (ps : List Particle) : List Particle :=
  let boundsMin := g.origin
  let boundsMax := g.gridDimensions.add g.origin
  ps.map (fun p =>
    let gi := g.cellPositionToIndex p.pos
    let acc := (neighborDeltas g).foldl (fun (a : Vec3 × Mat3) delta =>
      let ix := gi.x + delta.x
      let iy := gi.y + delta.y
      let iz := gi.z + delta.z
      if g.isValidCellIndex ix iy iz then
        let weight := g.getWeight p.pos delta
        let gridPos := g.cellIndexToPosition ix iy iz
        let cellVel := (cells.getD (g.toFlatIndex ix iy iz).toNat
          Cell.empty).vel
        (a.1.add (cellVel.smul weight),
         a.2.addMat ((outerMulVec3 cellVel (gridPos.sub p.pos)).smulMat
           weight))
      else a) (Vec3.zero, Mat3.zero)
    let newPos := (p.pos.add (acc.1.smul dt)).vmax boundsMin
    { p with vel := acc.1, B := acc.2, pos := newPos.vmin boundsMax })

/-- `Grid.resetCells`: zero every cell before accumulation. -/
def resetCells (cells : List Cell) : List Cell :=
  cells.map (fun _ => Cell.empty)

/-- `MPMSystem.step(dt)`: no-op for `dt <= 0`, otherwise reset, P2G, grid
update, G2P. -/
def MPMSystem.step (s : MPMSystem) (dt : ℚ) : MPMSystem :=
  if dt ≤ 0 then s
  else
    let cells0 := resetCells s.cells
    let pc := particleToGrid s.grid s.particles cells0
    let cells2 := updateGrid s.grid dt pc.2
    { s with cells := cells2,
             particles := gridToParticle s.grid dt cells2 pc.1 }

/-- Membership of a position in the grid's physical bounding box
`[origin, origin + gridDimensions]` (Boolean, componentwise). -/
def inBox (g : Grid) (v : Vec3) : Bool :=
  let lo := g.origin
  let hi := g.gridDimensions.add g.origin
  decide (lo.x ≤ v.x) && decide (v.x ≤ hi.x) &&
  (decide (lo.y ≤ v.y) && decide (v.y ≤ hi.y)) &&
  (decide (lo.z ≤ v.z) && decide (v.z ≤ hi.z))

/-- All particles of a list lie in the grid's bounding box. -/
def allInBox (g : Grid) (ps : List Particle) : Bool :=
  ps.all (fun p => inBox g p.pos)

/-- Sum of the kernel weights of all neighbor offsets of `pos`
(9 offsets for a 2D grid, 27 for 3D). -/
def weightSum (g : Grid) (pos : Vec3) : ℚ :=
  ((neighborDeltas g).map (g.getWeight pos)).sum

/-- 2D test grid: `4 x 4 x 1`, unit cells, corner at the world origin. -/
def gridA : Grid := { sizeX := 4, sizeY := 4, sizeZ := 1, cellSize := 1, origin := ⟨0, 0, 0⟩ }

/-- 2D test grid with `cellSize = 2`. -/
def gridB : Grid := { sizeX := 4, sizeY := 4, sizeZ := 1, cellSize := 2, origin := ⟨0, 0, 0⟩ }

/-- The `64 x 64 x 1` grid shape used by the `MPMSystem` constructor, with
unit cells and corner at the world origin. -/
def grid64 : Grid := { sizeX := 64, sizeY := 64, sizeZ := 1, cellSize := 1, origin := ⟨0, 0, 0⟩ }

/-- 2D test grid `8 x 8 x 1` with unit cells. -/
def grid8 : Grid := { sizeX := 8, sizeY := 8, sizeZ := 1, cellSize := 1, origin := ⟨0, 0, 0⟩ }

/-- A particle whose base cell on `grid64` is `(0, 1, 0)`, one cell away
from the low-x edge. -/
def particleP : Particle :=
  { active := true, mass := 1, pos := ⟨1/2, 3/2, 1/2⟩, vel := Vec3.zero, B := Mat3.zero }

/-- Small test grid centered on the origin. -/
def gridS : Grid := { sizeX := 4, sizeY := 4, sizeZ := 1, cellSize := 1, origin := ⟨-2, -2, 0⟩ }

/-- A particle in the middle of `gridS`. -/
def particleS : Particle :=
  { active := true, mass := 1, pos := ⟨0, 0, 1/2⟩, vel := Vec3.zero, B := Mat3.zero }

/-- A small one-particle simulation state on `gridS`. -/
def stateS : MPMSystem :=
  { grid := gridS, cells := initCells gridS, particles := [particleS] }

/-- A cell with positive mass and nonzero momentum and force. -/
def cellC : Cell := { mass := 2, mv := ⟨2, 4, 6⟩, vel := ⟨1, 1, 1⟩, force := ⟨1, 2, 3⟩ }

section

attribute [local semireducible] Rat.mul Rat.add Rat.sub Rat.inv

/-- C1, counterexample: the four particles seeded by
`addParticles((0,0,0), (1,1,0), 0.5, 1)` all have `pos.z = 0.25`, not `0`
as the claim locates them (`pos.z = min.z + 0*size + size/2`). -/
theorem claim1_counterexample :
    (addParticlesList ⟨0, 0, 0⟩ ⟨1, 1, 0⟩ (1/2) 1).map (fun p => p.pos.z) =
      [1/4, 1/4, 1/4, 1/4] ∧ ((1 : ℚ)/4) ≠ 0 := by
  decide

/-- C1, amended: on a fresh simulation,
`addParticles(min=(0,0,0), max=(1,1,0), size=0.5, mass=1)` produces exactly
4 particles at `(0.25, 0.25, 0.25)`, `(0.25, 0.75, 0.25)`,
`(0.75, 0.25, 0.25)`, `(0.75, 0.75, 0.25)` (the z coordinate is
`min.z + 0.5 * spacing`, not `0`), each with mass 1, `active = true`, zero
velocity and zero affine matrix. -/
theorem claim1_amended :
    ((mkMPMSystem (1/10)).addParticles ⟨0, 0, 0⟩ ⟨1, 1, 0⟩ (1/2) 1).particles =
      [⟨true, 1, ⟨1/4, 1/4, 1/4⟩, Vec3.zero, Mat3.zero⟩,
       ⟨true, 1, ⟨1/4, 3/4, 1/4⟩, Vec3.zero, Mat3.zero⟩,
       ⟨true, 1, ⟨3/4, 1/4, 1/4⟩, Vec3.zero, Mat3.zero⟩,
       ⟨true, 1, ⟨3/4, 3/4, 1/4⟩, Vec3.zero, Mat3.zero⟩] := by
  decide

/-- C2: the code's `getNQuadraticDerivative` evaluates the derivative at
`|x|`, so it is an even function: at `x = -1` it returns `-1/2`, equal to
its value at `x = 1` and not the odd-symmetric value `+1/2` that the
derivative of the (even) basis function must take at `-1`. -/
theorem claim2_code_eval :
    getNQuadraticDerivative (-1) = -(1/2) ∧
    getNQuadraticDerivative 1 = -(1/2) ∧
    getNQuadraticDerivative (-1) ≠ -getNQuadraticDerivative 1 := by
  decide

/-- C3, counterexample: on the 2D grid `gridA` (`cellSize = 1`), the z
diagonal entry of `getDQuadratic` is `1/4` (the square of the unit z cell
dimension over 4), not `0` as claimed. -/
theorem claim3_counterexample :
    gridA.is2D ∧ gridA.getDQuadratic.m33 = 1/4 ∧ ((1 : ℚ)/4) ≠ 0 := by
  decide

/-- C3, amended: `getDQuadratic` is diagonal with `cellSize^2 / 4` on the
x and y axes; the z entry is `1/4` (from the z cell dimension `1`) when the
grid is 2D and `cellSize^2 / 4` when it is 3D. -/
theorem claim3_amended (g : Grid) :
    g.getDQuadratic =
      ⟨g.cellSize^2 / 4, 0, 0,
       0, g.cellSize^2 / 4, 0,
       0, 0, if g.is2D then 1/4 else g.cellSize^2 / 4⟩ := by
  unfold Grid.getDQuadratic Grid.cellDimensions Vec3.hmul Vec3.smul
  by_cases h : g.is2D
  · simp only [if_pos h, Mat3.mk.injEq]
    norm_num
    and_intros <;> ring
  · simp only [if_neg h, Mat3.mk.injEq]
    norm_num
    and_intros <;> ring

/-- C4, counterexample: on the 2D grid `gridB` (`cellSize = 2`) the z
component of `cellIndexToPosition(0,0,0)` is `0 + 0.5 * cellSize = 1`,
not `origin.z + 0.5 * cellDims.z = 0.5` as the claim computes it. -/
theorem claim4_counterexample :
    gridB.is2D ∧ (gridB.cellIndexToPosition 0 0 0).z = 1 ∧
      ((1 : ℚ) ≠ gridB.origin.z + (0 + 1/2) * 1) := by
  decide

/-- C4, amended: `cellIndexToPosition(i)` equals
`origin + (i + 0.5) * cellSize` on every axis — the scalar `cellSize` is
used uniformly, including on the z axis of a 2D grid (where the claim
expected the z cell dimension `1`). -/
theorem claim4_amended (g : Grid) (i j k : ℤ) :
    g.cellIndexToPosition i j k =
      ⟨g.origin.x + ((i : ℚ) + 1/2) * g.cellSize,
       g.origin.y + ((j : ℚ) + 1/2) * g.cellSize,
       g.origin.z + ((k : ℚ) + 1/2) * g.cellSize⟩ := by
  unfold Grid.cellIndexToPosition
  simp only [Vec3.mk.injEq]
  exact ⟨by ring, by ring, by ring⟩

/-- C5: `isValidCellIndex` checks only the flattened index. On the
`64 x 64 x 1` grid, the triple `(-1, 1, 0)` — whose x component is outside
`[0, 64)` — is accepted because its flat index `63` is in range and equals
the flat index of the in-lattice cell `(63, 0, 0)`. Consequently the P2G
scatter for a particle with base cell `(0, 1, 0)` does not skip the
neighbor offset `(-1, 0, 0)`: it deposits mass `3/32` into the cell stored
at flat index 63, and the G2P gather likewise reads velocity from that
cell (a particle gathering from it picks up `3/32` of its velocity). -/
theorem claim5_flat_index_aliasing :
    grid64.isValidCellIndex (-1) 1 0 = true ∧
    ¬(0 ≤ (-1 : ℤ)) ∧
    grid64.toFlatIndex (-1) 1 0 = grid64.toFlatIndex 63 0 0 ∧
    grid64.cellPositionToIndex particleP.pos = ⟨0, 1, 0⟩ ∧
    ((particleToGrid grid64 [particleP] (initCells grid64)).2.getD 63
      Cell.empty).mass = 3/32 ∧
    (gridToParticle grid64 1
        ((initCells grid64).set 63 { Cell.empty with vel := ⟨1, 0, 0⟩ })
        [particleP]).map (fun p => p.vel) = [⟨3/32, 0, 0⟩] := by
  decide

/-- C7: `step(dt)` with `dt <= 0` returns without touching any state: the
resulting system — every particle field and every cell field — is exactly
the input system. -/
theorem claim7_noop (s : MPMSystem) (dt : ℚ) (h : dt ≤ 0) : s.step dt = s := by
  simp [MPMSystem.step, h]

/-- Witness for C7 at `dt = 0` on a concrete one-particle state. -/
theorem claim7_witness : ((0 : ℚ) ≤ 0) ∧ stateS.step 0 = stateS :=
  ⟨le_refl 0, claim7_noop stateS 0 (le_refl 0)⟩

end

/-- An in-range index triple has its flat index in `[0, dataLength)`. -/
theorem toFlatIndex_range (g : Grid) (x y z : ℤ)
    (hx0 : 0 ≤ x) (hx1 : x < g.sizeX) (hy0 : 0 ≤ y) (hy1 : y < g.sizeY)
    (hz0 : 0 ≤ z) (hz1 : z < g.sizeZ) :
    0 ≤ g.toFlatIndex x y z ∧ g.toFlatIndex x y z < g.dataLength := by
  unfold Grid.toFlatIndex Grid.dataLength
  have hsx : 0 < g.sizeX := lt_of_le_of_lt hx0 hx1
  have hsy : 0 < g.sizeY := lt_of_le_of_lt hy0 hy1
  have hsz : 0 < g.sizeZ := lt_of_le_of_lt hz0 hz1
  have h1 : y * g.sizeX ≤ (g.sizeY - 1) * g.sizeX :=
    mul_le_mul_of_nonneg_right (by omega) (by omega)
  have h2 : z * (g.sizeX * g.sizeY) ≤ (g.sizeZ - 1) * (g.sizeX * g.sizeY) :=
    mul_le_mul_of_nonneg_right (by omega) (by positivity)
  have e : (g.sizeX - 1) + (g.sizeY - 1) * g.sizeX +
      (g.sizeZ - 1) * (g.sizeX * g.sizeY) = g.sizeX * g.sizeY * g.sizeZ - 1 := by
    ring
  have h1n : 0 ≤ y * g.sizeX := mul_nonneg hy0 (le_of_lt hsx)
  have h2n : 0 ≤ z * (g.sizeX * g.sizeY) :=
    mul_nonneg hz0 (by positivity)
  constructor
  · have : z * g.sizeX * g.sizeY = z * (g.sizeX * g.sizeY) := by ring
    omega
  · have hassoc : z * g.sizeX * g.sizeY = z * (g.sizeX * g.sizeY) := by ring
    omega

/-- An in-range index triple is accepted by `isValidCellIndex`. -/
theorem isValidCellIndex_of_range (g : Grid) (x y z : ℤ)
    (hx0 : 0 ≤ x) (hx1 : x < g.sizeX) (hy0 : 0 ≤ y) (hy1 : y < g.sizeY)
    (hz0 : 0 ≤ z) (hz1 : z < g.sizeZ) :
    g.isValidCellIndex x y z = true := by
  obtain ⟨h1, h2⟩ := toFlatIndex_range g x y z hx0 hx1 hy0 hy1 hz0 hz1
  simp [Grid.isValidCellIndex, h1, h2]

/-- The flat index is injective on in-range triples. -/
theorem toFlatIndex_inj (g : Grid) (x1 y1 z1 x2 y2 z2 : ℤ)
    (hx1 : 0 ≤ x1) (hx1b : x1 < g.sizeX) (hy1 : 0 ≤ y1) (hy1b : y1 < g.sizeY)
    (hz1 : 0 ≤ z1) (hz1b : z1 < g.sizeZ)
    (hx2 : 0 ≤ x2) (hx2b : x2 < g.sizeX) (hy2 : 0 ≤ y2) (hy2b : y2 < g.sizeY)
    (hz2 : 0 ≤ z2) (hz2b : z2 < g.sizeZ)
    (h : g.toFlatIndex x1 y1 z1 = g.toFlatIndex x2 y2 z2) :
    x1 = x2 ∧ y1 = y2 ∧ z1 = z2 := by
  unfold Grid.toFlatIndex at h
  have hsx : 0 < g.sizeX := lt_of_le_of_lt hx1 hx1b
  have hsy : 0 < g.sizeY := lt_of_le_of_lt hy1 hy1b
  have h' : x1 + (y1 + z1 * g.sizeY) * g.sizeX =
      x2 + (y2 + z2 * g.sizeY) * g.sizeX := by linear_combination h
  have hmod := congrArg (fun t => t % g.sizeX) h'
  simp only [Int.add_mul_emod_self] at hmod
  rw [Int.emod_eq_of_lt hx1 hx1b, Int.emod_eq_of_lt hx2 hx2b] at hmod
  subst hmod
  have h2 : (y1 + z1 * g.sizeY) * g.sizeX = (y2 + z2 * g.sizeY) * g.sizeX := by
    omega
  have h3 : y1 + z1 * g.sizeY = y2 + z2 * g.sizeY :=
    mul_right_cancel₀ (by omega) h2
  have hmod2 := congrArg (fun t => t % g.sizeY) h3
  simp only [Int.add_mul_emod_self] at hmod2
  rw [Int.emod_eq_of_lt hy1 hy1b, Int.emod_eq_of_lt hy2 hy2b] at hmod2
  subst hmod2
  have h4 : z1 * g.sizeY = z2 * g.sizeY := by omega
  have h5 : z1 = z2 := mul_right_cancel₀ (by omega) h4
  exact ⟨rfl, rfl, h5⟩

/-- Membership in the `_updateGrid` loop's triple list is exactly per-axis
range membership. -/
theorem mem_cellTriples (g : Grid) (x y z : ℤ) :
    (x, y, z) ∈ cellTriples g ↔
      0 ≤ x ∧ x < g.sizeX ∧ 0 ≤ y ∧ y < g.sizeY ∧ 0 ≤ z ∧ z < g.sizeZ := by
  simp only [cellTriples, List.mem_flatMap, List.mem_map, List.mem_range,
    Prod.mk.injEq, Int.ofNat_eq_natCast]
  constructor
  · rintro ⟨a, ha, b, hb, c, hc, h1, h2, h3⟩
    omega
  · rintro ⟨h1, h2, h3, h4, h5, h6⟩
    exact ⟨x.toNat, by omega, y.toNat, by omega, z.toNat, by omega,
      by omega, by omega, by omega⟩

/-- The `_updateGrid` loop visits pairwise distinct triples. -/
theorem nodup_cellTriples (g : Grid) : (cellTriples g).Nodup := by
  unfold cellTriples
  rw [List.nodup_flatMap]
  constructor
  · intro a _
    rw [List.nodup_flatMap]
    constructor
    · intro b _
      refine (List.nodup_range _).map_on ?_
      intro c1 _ c2 _ hcc
      have h3 := congrArg (fun t : ℤ × ℤ × ℤ => t.2.2) hcc
      simp only [Int.ofNat_eq_natCast] at h3
      omega
    · refine List.Pairwise.imp ?_ (List.nodup_range _)
      intro b1 b2 hne t ht1 ht2
      simp only [List.mem_map, List.mem_range, Prod.mk.injEq,
        Int.ofNat_eq_natCast] at ht1 ht2
      obtain ⟨c1, _, _, eb1, _⟩ := ht1
      obtain ⟨c2, _, _, eb2, _⟩ := ht2
      omega
  · refine List.Pairwise.imp ?_ (List.nodup_range _)
    intro a1 a2 hne t ht1 ht2
    simp only [List.mem_flatMap, List.mem_map, List.mem_range,
      Prod.mk.injEq, Int.ofNat_eq_natCast] at ht1 ht2
    obtain ⟨b1, _, c1, _, ea1, _, _⟩ := ht1
    obtain ⟨b2, _, c2, _, ea2, _, _⟩ := ht2
    omega

/-- The flat indices visited by the `_updateGrid` loop are pairwise
distinct. -/
theorem nodup_cellTriples_flat (g : Grid) :
    ((cellTriples g).map
      (fun t => (g.toFlatIndex t.1 t.2.1 t.2.2).toNat)).Nodup := by
  refine (nodup_cellTriples g).map_on ?_
  rintro ⟨x1, y1, z1⟩ h1 ⟨x2, y2, z2⟩ h2 he
  rw [mem_cellTriples] at h1 h2
  obtain ⟨a1, b1, c1, d1, e1, f1⟩ := h1
  obtain ⟨a2, b2, c2, d2, e2, f2⟩ := h2
  simp only at he
  have hr1 := toFlatIndex_range g x1 y1 z1 a1 b1 c1 d1 e1 f1
  have hr2 := toFlatIndex_range g x2 y2 z2 a2 b2 c2 d2 e2 f2
  have hfl : g.toFlatIndex x1 y1 z1 = g.toFlatIndex x2 y2 z2 := by omega
  obtain ⟨ex, ey, ez⟩ :=
    toFlatIndex_inj g x1 y1 z1 x2 y2 z2 a1 b1 c1 d1 e1 f1 a2 b2 c2 d2 e2 f2 hfl
  rw [ex, ey, ez]

/-- Folding set-at-index operations over a list of keys none of which is
`n` leaves the entry at `n` unchanged. -/
theorem foldl_set_preserve {α : Type} (idx : α → ℕ) (f : α → Cell → Cell)
    (ts : List α) (cells : List Cell) (n : ℕ) (h : ∀ t ∈ ts, idx t ≠ n) :
    ((ts.foldl
        (fun cs t => cs.set (idx t) (f t (cs.getD (idx t) Cell.empty)))
        cells).getD n Cell.empty) = cells.getD n Cell.empty := by
  induction ts generalizing cells with
  | nil => rfl
  | cons t ts ih =>
    simp only [List.foldl_cons]
    rw [ih _ (fun u hu => h u (List.mem_cons_of_mem _ hu))]
    rw [List.getD_eq_getElem?_getD,
      List.getElem?_set_ne (h t (List.mem_cons_self _ _)),
      ← List.getD_eq_getElem?_getD]

/-- Folding set-at-index operations over pairwise-distinct keys applies the
per-key update exactly once to the entry at each visited key. -/
theorem foldl_set_apply {α : Type} (idx : α → ℕ) (f : α → Cell → Cell)
    (ts : List α) (cells : List Cell) (t0 : α) (hmem : t0 ∈ ts)
    (hnd : (ts.map idx).Nodup) (hlt : idx t0 < cells.length) :
    ((ts.foldl
        (fun cs t => cs.set (idx t) (f t (cs.getD (idx t) Cell.empty)))
        cells).getD (idx t0) Cell.empty) =
      f t0 (cells.getD (idx t0) Cell.empty) := by
  induction ts generalizing cells with
  | nil => cases hmem
  | cons t ts ih =>
    simp only [List.map_cons, List.nodup_cons] at hnd
    obtain ⟨hnotmem, hnd'⟩ := hnd
    simp only [List.foldl_cons]
    rcases List.mem_cons.1 hmem with he | hm
    · subst he
      rw [foldl_set_preserve idx f ts _ (idx t0) ?_]
      · rw [List.getD_eq_getElem?_getD, List.getElem?_set_self hlt]
        rfl
      · intro u hu he
        exact hnotmem (he ▸ List.mem_map_of_mem idx hu)
    · rw [ih _ hm hnd' (by rw [List.length_set]; exact hlt)]
      have hne : idx t ≠ idx t0 := by
        intro he
        exact hnotmem (he ▸ List.mem_map_of_mem idx hm)
      rw [List.getD_eq_getElem?_getD, List.getElem?_set_ne hne,
        ← List.getD_eq_getElem?_getD]

/-- `_updateGrid` rewrites the cell at each in-range index triple by the
per-cell body `updateCell`, reading the pre-phase value of that cell. -/
theorem updateGrid_getD (g : Grid) (dt : ℚ) (cells : List Cell) (x y z : ℤ)
    (hlen : cells.length = g.dataLength.toNat)
    (hx0 : 0 ≤ x) (hx1 : x < g.sizeX) (hy0 : 0 ≤ y) (hy1 : y < g.sizeY)
    (hz0 : 0 ≤ z) (hz1 : z < g.sizeZ) :
    (updateGrid g dt cells).getD (g.toFlatIndex x y z).toNat Cell.empty =
      updateCell g dt x y z
        (cells.getD (g.toFlatIndex x y z).toNat Cell.empty) := by
  have hmem : ((x, y, z) : ℤ × ℤ × ℤ) ∈ cellTriples g :=
    (mem_cellTriples g x y z).2 ⟨hx0, hx1, hy0, hy1, hz0, hz1⟩
  have hrange := toFlatIndex_range g x y z hx0 hx1 hy0 hy1 hz0 hz1
  have hlt : (g.toFlatIndex x y z).toNat < cells.length := by omega
  exact foldl_set_apply
    (fun t => (g.toFlatIndex t.1 t.2.1 t.2.2).toNat)
    (fun t c => updateCell g dt t.1 t.2.1 t.2.2 c)
    (cellTriples g) cells (x, y, z) hmem (nodup_cellTriples_flat g) hlt

/-- The boundary mask on the x component. -/
theorem applyBoundary_x (g : Grid) (x y z : ℤ) (v : Vec3) :
    (applyBoundary g x y z v).x =
      if x < 2 ∨ g.sizeX - 2 ≤ x then 0 else v.x := by
  unfold applyBoundary
  split_ifs <;> rfl

/-- The boundary mask on the y component. -/
theorem applyBoundary_y (g : Grid) (x y z : ℤ) (v : Vec3) :
    (applyBoundary g x y z v).y =
      if y < 2 ∨ g.sizeY - 2 ≤ y then 0 else v.y := by
  unfold applyBoundary
  split_ifs <;> rfl

/-- The boundary mask on the z component: exempt on 2D grids. -/
theorem applyBoundary_z (g : Grid) (x y z : ℤ) (v : Vec3) :
    (applyBoundary g x y z v).z =
      if ¬g.is2D ∧ (z < 2 ∨ g.sizeZ - 2 ≤ z) then 0 else v.z := by
  unfold applyBoundary
  split_ifs <;> rfl

/-- C6: in the grid-update phase, a cell with non-positive mass is cleared;
a cell with positive mass keeps its mass, momentum and force, and its
velocity becomes `mv/mass + dt * (force/mass + gravity)` with
`gravity = (0, -9.8, 0)`, except that the component on any axis whose index
is within 2 cells of either end is zeroed — the z axis being exempt on a 2D
grid; and `_updateGrid` applies exactly this per-cell body to the cell
stored at the flat index of every in-range triple. -/
theorem claim6_grid_update (g : Grid) (dt : ℚ) (x y z : ℤ) (c : Cell) :
    (c.mass ≤ 0 → updateCell g dt x y z c = Cell.empty) ∧
    (0 < c.mass →
      ((updateCell g dt x y z c).mass = c.mass ∧
       (updateCell g dt x y z c).mv = c.mv ∧
       (updateCell g dt x y z c).force = c.force) ∧
      ((2 ≤ x ∧ x < g.sizeX - 2) →
        (updateCell g dt x y z c).vel.x =
          c.mv.x / c.mass + dt * (c.force.x / c.mass + 0)) ∧
      ((x < 2 ∨ g.sizeX - 2 ≤ x) → (updateCell g dt x y z c).vel.x = 0) ∧
      ((2 ≤ y ∧ y < g.sizeY - 2) →
        (updateCell g dt x y z c).vel.y =
          c.mv.y / c.mass + dt * (c.force.y / c.mass + -(49/5))) ∧
      ((y < 2 ∨ g.sizeY - 2 ≤ y) → (updateCell g dt x y z c).vel.y = 0) ∧
      (g.is2D →
        (updateCell g dt x y z c).vel.z =
          c.mv.z / c.mass + dt * (c.force.z / c.mass + 0)) ∧
      (¬g.is2D →
        ((2 ≤ z ∧ z < g.sizeZ - 2) →
          (updateCell g dt x y z c).vel.z =
            c.mv.z / c.mass + dt * (c.force.z / c.mass + 0)) ∧
        ((z < 2 ∨ g.sizeZ - 2 ≤ z) → (updateCell g dt x y z c).vel.z = 0))) ∧
    (∀ cells : List Cell, cells.length = g.dataLength.toNat →
      0 ≤ x → x < g.sizeX → 0 ≤ y → y < g.sizeY → 0 ≤ z → z < g.sizeZ →
      (updateGrid g dt cells).getD (g.toFlatIndex x y z).toNat Cell.empty =
        updateCell g dt x y z
          (cells.getD (g.toFlatIndex x y z).toNat Cell.empty)) := by
  refine ⟨fun hm => by simp [updateCell, hm], fun hm => ?_,
    fun cells hlen hx0 hx1 hy0 hy1 hz0 hz1 =>
      updateGrid_getD g dt cells x y z hlen hx0 hx1 hy0 hy1 hz0 hz1⟩
  have hni : ¬c.mass ≤ 0 := not_le.2 hm
  refine ⟨⟨?_, ?_, ?_⟩, ?_, ?_, ?_, ?_, ?_, ?_⟩
  · simp [updateCell, hni]
  · simp [updateCell, hni]
  · simp [updateCell, hni]
  · rintro ⟨h1, h2⟩
    simp only [updateCell, if_neg hni, applyBoundary_x, Vec3.add, Vec3.smul,
      GRAVITY]
    rw [if_neg (by omega)]
    ring
  · intro h
    simp only [updateCell, if_neg hni, applyBoundary_x]
    rw [if_pos h]
  · rintro ⟨h1, h2⟩
    simp only [updateCell, if_neg hni, applyBoundary_y, Vec3.add, Vec3.smul,
      GRAVITY]
    rw [if_neg (by omega)]
    ring
  · intro h
    simp only [updateCell, if_neg hni, applyBoundary_y]
    rw [if_pos h]
  · intro h2d
    simp only [updateCell, if_neg hni, applyBoundary_z, Vec3.add, Vec3.smul,
      GRAVITY]
    rw [if_neg (by simp [h2d])]
    ring
  · intro h3d
    constructor
    · rintro ⟨h1, h2⟩
      simp only [updateCell, if_neg hni, applyBoundary_z, Vec3.add, Vec3.smul,
        GRAVITY]
      rw [if_neg (by simp [h3d]; omega)]
      ring
    · intro h
      simp only [updateCell, if_neg hni, applyBoundary_z]
      rw [if_pos ⟨h3d, h⟩]

/-- A fold whose every step preserves list length preserves list length. -/
theorem length_foldl_inv {α : Type} (f : List Cell → α → List Cell)
    (h : ∀ cs a, (f cs a).length = cs.length) (l : List α)
    (cells : List Cell) : (l.foldl f cells).length = cells.length := by
  induction l generalizing cells with
  | nil => rfl
  | cons t ts ih => rw [List.foldl_cons, ih, h]

/-- A single particle's P2G scatter does not change the cell count. -/
theorem length_particleScatter (g : Grid) (D : Mat3) (p : Particle)
    (cells : List Cell) : (particleScatter g D p cells).length = cells.length := by
  unfold particleScatter
  refine length_foldl_inv _ ?_ _ _
  intro cs d
  dsimp only
  split_ifs <;> simp [List.length_set]

/-- The P2G phase does not change the cell count. -/
theorem length_particleToGrid (g : Grid) (ps : List Particle)
    (cells : List Cell) : (particleToGrid g ps cells).2.length = cells.length := by
  unfold particleToGrid
  dsimp only
  refine length_foldl_inv _ ?_ _ _
  intro cs p
  exact length_particleScatter g _ p cs

/-- The grid-update phase does not change the cell count. -/
theorem length_updateGrid (g : Grid) (dt : ℚ) (cells : List Cell) :
    (updateGrid g dt cells).length = cells.length := by
  unfold updateGrid
  refine length_foldl_inv _ ?_ _ _
  intro cs t
  dsimp only
  simp [List.length_set]

/-- C10: `step(dt)` never changes the grid shape (size, cellSize, origin),
the number or order of particles, any particle's mass or active flag, or
the length of the cell array; only cell contents and particle pos/vel/B
are rewritten. -/
theorem claim10_frame (s : MPMSystem) (dt : ℚ) :
    (s.step dt).grid = s.grid ∧
    (s.step dt).particles.length = s.particles.length ∧
    (s.step dt).particles.map Particle.mass = s.particles.map Particle.mass ∧
    (s.step dt).particles.map Particle.active =
      s.particles.map Particle.active ∧
    (s.step dt).cells.length = s.cells.length := by
  by_cases h : dt ≤ 0
  · simp [MPMSystem.step, h]
  · unfold MPMSystem.step
    rw [if_neg h]
    dsimp only
    refine ⟨rfl, ?_, ?_, ?_, ?_⟩
    · unfold gridToParticle particleToGrid
      dsimp only
      rw [List.length_map, List.length_map]
    · unfold gridToParticle particleToGrid
      dsimp only
      rw [List.map_map, List.map_map]
      rfl
    · unfold gridToParticle particleToGrid
      dsimp only
      rw [List.map_map, List.map_map]
      rfl
    · rw [length_updateGrid, length_particleToGrid]
      unfold resetCells
      rw [List.length_map]

section

attribute [local semireducible] Rat.mul Rat.add Rat.sub Rat.inv

/-- Witness for C6 at an interior cell of `grid8` with mass 2, momentum
`(2,4,6)` and force `(1,2,3)`: the x velocity becomes
`mv.x/mass + dt*(force.x/mass) = 3/2`. -/
theorem claim6_witness :
    (0 : ℚ) < cellC.mass ∧ ((2 : ℤ) ≤ 3 ∧ (3 : ℤ) < grid8.sizeX - 2) ∧
    (updateCell grid8 1 3 3 0 cellC).vel.x = 3/2 := by
  refine ⟨by decide, ⟨by decide, by decide⟩, ?_⟩
  have h := ((claim6_grid_update grid8 1 3 3 0 cellC).2.1
    (by decide)).2.1 ⟨by decide, by decide⟩
  rw [h]
  decide

end

/-- `step` never changes the grid shape. -/
theorem step_grid_eq (s : MPMSystem) (dt : ℚ) : (s.step dt).grid = s.grid := by
  unfold MPMSystem.step
  split_ifs <;> rfl

/-- `step` with non-positive `dt` returns the state unchanged. -/
theorem step_of_nonpos (s : MPMSystem) (dt : ℚ) (h : dt ≤ 0) :
    s.step dt = s := by
  simp [MPMSystem.step, h]

/-- A valid grid has positive physical extent on every axis. -/
theorem gridDimensions_pos (g : Grid) (hc : 0 < g.cellSize)
    (hx : 0 < g.sizeX) (hy : 0 < g.sizeY) (hz : 0 < g.sizeZ) :
    0 < g.gridDimensions.x ∧ 0 < g.gridDimensions.y ∧
      0 < g.gridDimensions.z := by
  have hxq : (0 : ℚ) < (g.sizeX : ℚ) := Int.cast_pos.2 hx
  have hyq : (0 : ℚ) < (g.sizeY : ℚ) := Int.cast_pos.2 hy
  have hzq : (0 : ℚ) < (g.sizeZ : ℚ) := Int.cast_pos.2 hz
  unfold Grid.gridDimensions Grid.cellDimensions Vec3.hmul
  refine ⟨mul_pos hc hxq, mul_pos hc hyq, ?_⟩
  dsimp only
  split_ifs
  · exact mul_pos one_pos hzq
  · exact mul_pos hc hzq

/-- Clamping into the grid's bounding box lands inside the box. -/
theorem inBox_clamp (g : Grid) (hc : 0 < g.cellSize) (hx : 0 < g.sizeX)
    (hy : 0 < g.sizeY) (hz : 0 < g.sizeZ) (v : Vec3) :
    inBox g ((v.vmax g.origin).vmin (g.gridDimensions.add g.origin)) =
      true := by
  obtain ⟨h1, h2, h3⟩ := gridDimensions_pos g hc hx hy hz
  simp only [inBox, Vec3.vmax, Vec3.vmin, Vec3.add, Bool.and_eq_true,
    decide_eq_true_eq]
  refine ⟨⟨⟨?_, ?_⟩, ?_, ?_⟩, ?_, ?_⟩
  · exact le_min (le_max_right _ _) (by linarith)
  · exact min_le_right _ _
  · exact le_min (le_max_right _ _) (by linarith)
  · exact min_le_right _ _
  · exact le_min (le_max_right _ _) (by linarith)
  · exact min_le_right _ _

/-- One positive-dt step leaves every particle inside the grid box. -/
theorem step_allInBox (s : MPMSystem) (dt : ℚ) (hc : 0 < s.grid.cellSize)
    (hx : 0 < s.grid.sizeX) (hy : 0 < s.grid.sizeY) (hz : 0 < s.grid.sizeZ)
    (hdt : 0 < dt) : allInBox s.grid (s.step dt).particles = true := by
  unfold MPMSystem.step
  rw [if_neg (not_le.2 hdt)]
  dsimp only
  unfold allInBox gridToParticle
  rw [List.all_eq_true]
  intro p hp
  rw [List.mem_map] at hp
  obtain ⟨q, _, rfl⟩ := hp
  dsimp only
  exact inBox_clamp s.grid hc hx hy hz _

/-- Any sequence of steps keeps all particles inside the box of the
(unchanged) grid, provided they start inside it. -/
theorem steps_allInBox (dts : List ℚ) (s : MPMSystem)
    (hc : 0 < s.grid.cellSize) (hx : 0 < s.grid.sizeX)
    (hy : 0 < s.grid.sizeY) (hz : 0 < s.grid.sizeZ)
    (h0 : allInBox s.grid s.particles = true) :
    (dts.foldl MPMSystem.step s).grid = s.grid ∧
      allInBox s.grid (dts.foldl MPMSystem.step s).particles = true := by
  induction dts generalizing s with
  | nil => exact ⟨rfl, h0⟩
  | cons d ds ih =>
    rw [List.foldl_cons]
    have hg := step_grid_eq s d
    have h0' : allInBox (s.step d).grid (s.step d).particles = true := by
      rw [hg]
      by_cases hd : d ≤ 0
      · rw [step_of_nonpos s d hd]
        exact h0
      · exact step_allInBox s d hc hx hy hz (not_le.1 hd)
    obtain ⟨e1, e2⟩ := ih (s.step d) (by rw [hg]; exact hc) (by rw [hg]; exact hx)
      (by rw [hg]; exact hy) (by rw [hg]; exact hz) h0'
    rw [hg] at e1 e2
    exact ⟨e1, e2⟩

/-- C8: after `step(dt)` with `dt > 0` on a validly shaped grid, every
particle's position is inside the grid's physical bounding box
`[origin, origin + gridDimensions]` (the G2P phase clamps positions
componentwise); hence any sequence of steps starting with all particles
inside the box keeps them all inside it. -/
theorem claim8_containment (s : MPMSystem) (dt : ℚ)
    (hc : 0 < s.grid.cellSize) (hx : 0 < s.grid.sizeX)
    (hy : 0 < s.grid.sizeY) (hz : 0 < s.grid.sizeZ) (hdt : 0 < dt) :
    allInBox s.grid (s.step dt).particles = true ∧
    (∀ dts : List ℚ, allInBox s.grid s.particles = true →
      allInBox s.grid (dts.foldl MPMSystem.step s).particles = true) :=
  ⟨step_allInBox s dt hc hx hy hz hdt,
   fun dts h0 => (steps_allInBox dts s hc hx hy hz h0).2⟩

section

attribute [local semireducible] Rat.mul Rat.add Rat.sub Rat.inv

/-- Witness for C8 on a concrete one-particle state with a valid grid and
`dt = 1`. -/
theorem claim8_witness :
    (0 : ℚ) < stateS.grid.cellSize ∧ (0 : ℚ) < 1 ∧
    allInBox stateS.grid (stateS.step 1).particles = true :=
  ⟨by decide, by norm_num,
   (claim8_containment stateS 1 (by decide) (by decide) (by decide)
     (by decide) (by norm_num)).1⟩

end

/-- The executable `Rat.floor` agrees with the `FloorRing` floor. -/
theorem ratFloor_eq (q : ℚ) : Rat.floor q = ⌊q⌋ :=
  (Rat.floor_def' q).trans Rat.floor_def.symm

/-- The quadratic basis sums to 1 over the three stencil points around any
offset `f` in `[-1/2, 1/2)`. -/
theorem sumN_core (f : ℚ) (h1 : -(1/2) ≤ f) (h2 : f < 1/2) :
    getNQuadratic (f + 1) + getNQuadratic f + getNQuadratic (f - 1) = 1 := by
  have e1 : getNQuadratic (f + 1) = 1/2 * (1/2 - f) * (1/2 - f) := by
    unfold getNQuadratic
    rw [abs_of_nonneg (by linarith)]
    rw [if_neg (by linarith), if_pos (by linarith)]
    ring
  have e2 : getNQuadratic f = 3/4 - f * f := by
    unfold getNQuadratic
    by_cases hf : |f| < 1/2
    · rw [if_pos hf, abs_mul_abs_self]
    · have hfe : f = -(1/2) := by
        rcases abs_cases f with ⟨ha, _⟩ | ⟨ha, _⟩ <;> rw [ha] at hf <;> linarith
      subst hfe
      rw [if_neg hf, if_pos (by rw [abs_of_nonpos (by norm_num)]; norm_num)]
      rw [abs_of_nonpos (by norm_num)]
      norm_num
  have e3 : getNQuadratic (f - 1) = 1/2 * (1/2 + f) * (1/2 + f) := by
    unfold getNQuadratic
    rw [abs_of_nonpos (by linarith)]
    by_cases hf : f = -(1/2)
    · subst hf
      rw [if_neg (by norm_num), if_neg (by norm_num)]
      norm_num
    · rw [if_neg (by linarith), if_pos (by
        have : -(1/2) < f := lt_of_le_of_ne h1 (fun he => hf he.symm)
        linarith)]
      ring
  rw [e1, e2, e3]
  ring

/-- Floor bounds induced by a 1.5-cell margin on both sides. -/
theorem floor_margin (r : ℚ) (n : ℤ) (h1 : 3/2 ≤ r)
    (h2 : r ≤ (n : ℚ) - 3/2) : 1 ≤ ⌊r⌋ ∧ ⌊r⌋ ≤ n - 2 := by
  constructor
  · exact Int.le_floor.2 (by push_cast; linarith)
  · have ha : (⌊r⌋ : ℚ) ≤ (n : ℚ) - 3/2 := le_trans (Int.floor_le r) h2
    have hb : (⌊r⌋ : ℚ) < ((n - 1 : ℤ) : ℚ) := by push_cast; linarith
    have hcq : ⌊r⌋ < n - 1 := Int.cast_lt.1 hb
    omega

/-- The fractional offset to the containing cell's half-point lies in
`[-1/2, 1/2)`. -/
theorem fract_offset (r : ℚ) :
    -(1/2) ≤ r - (⌊r⌋ : ℚ) - 1/2 ∧ r - (⌊r⌋ : ℚ) - 1/2 < 1/2 := by
  have ha := Int.floor_le r
  have hb := Int.lt_floor_add_one r
  constructor <;> linarith

/-- `getWeight` at a neighbor offset whose index passes the validity check
is the product of per-axis basis values at normalized displacements. -/
theorem getWeight_valid_eq (g : Grid) (pos : Vec3) (delta : IVec3)
    (hc : g.cellSize ≠ 0)
    (hval : g.isValidCellIndex ((g.cellPositionToIndex pos).x + delta.x)
      ((g.cellPositionToIndex pos).y + delta.y)
      ((g.cellPositionToIndex pos).z + delta.z) = true) :
    g.getWeight pos delta =
      getNQuadratic ((pos.x - g.origin.x) / g.cellSize -
        (((g.cellPositionToIndex pos).x : ℚ) + (delta.x : ℚ)) - 1/2) *
      getNQuadratic ((pos.y - g.origin.y) / g.cellSize -
        (((g.cellPositionToIndex pos).y : ℚ) + (delta.y : ℚ)) - 1/2) *
      (if g.is2D then 1
       else getNQuadratic ((pos.z - g.origin.z) / g.cellSize -
        (((g.cellPositionToIndex pos).z : ℚ) + (delta.z : ℚ)) - 1/2)) := by
  unfold Grid.getWeight
  dsimp only
  rw [if_pos hval]
  unfold Grid.cellIndexToPosition Vec3.sub Vec3.hdiv Grid.cellDimensions
  dsimp only
  congr 1
  · congr 1
    · refine congrArg getNQuadratic ?_
      push_cast
      field_simp
      ring
    · refine congrArg getNQuadratic ?_
      push_cast
      field_simp
      ring
  · by_cases h2 : g.is2D
    · rw [if_pos h2, if_pos h2]
    · rw [if_neg h2, if_neg h2, if_neg h2]
      refine congrArg getNQuadratic ?_
      push_cast
      field_simp
      ring

/-- The 9 neighbor offsets of the P2G/G2P loops on a 2D grid. -/
theorem neighborDeltas_2d (g : Grid) (h : g.is2D) :
    neighborDeltas g =
      [⟨-1, -1, 0⟩, ⟨-1, 0, 0⟩, ⟨-1, 1, 0⟩, ⟨0, -1, 0⟩, ⟨0, 0, 0⟩,
       ⟨0, 1, 0⟩, ⟨1, -1, 0⟩, ⟨1, 0, 0⟩, ⟨1, 1, 0⟩] := by
  unfold neighborDeltas
  rw [if_pos h]
  rfl

/-- Partition of unity for a 2D grid: the 9 kernel weights around a
position with a 1.5-cell margin on x and y and a z coordinate inside the
single-cell layer sum to 1. -/
theorem weightSum_2d (g : Grid) (pos : Vec3) (hc : 0 < g.cellSize)
    (h2 : g.is2D)
    (hx1 : g.origin.x + 3/2 * g.cellSize ≤ pos.x)
    (hx2 : pos.x ≤ g.origin.x + (g.sizeX : ℚ) * g.cellSize - 3/2 * g.cellSize)
    (hy1 : g.origin.y + 3/2 * g.cellSize ≤ pos.y)
    (hy2 : pos.y ≤ g.origin.y + (g.sizeY : ℚ) * g.cellSize - 3/2 * g.cellSize)
    (hz1 : g.origin.z ≤ pos.z) (hz2 : pos.z < g.origin.z + 1) :
    weightSum g pos = 1 := by
  have hc' : g.cellSize ≠ 0 := ne_of_gt hc
  have e_ix : (g.cellPositionToIndex pos).x =
      ⌊(pos.x - g.origin.x) / g.cellSize⌋ := by
    unfold Grid.cellPositionToIndex Vec3.sub Vec3.hdiv Grid.cellDimensions
    dsimp only
    rw [ratFloor_eq]
  have e_iy : (g.cellPositionToIndex pos).y =
      ⌊(pos.y - g.origin.y) / g.cellSize⌋ := by
    unfold Grid.cellPositionToIndex Vec3.sub Vec3.hdiv Grid.cellDimensions
    dsimp only
    rw [ratFloor_eq]
  have e_iz : (g.cellPositionToIndex pos).z = 0 := by
    unfold Grid.cellPositionToIndex Vec3.sub Vec3.hdiv Grid.cellDimensions
    dsimp only
    rw [if_pos h2, ratFloor_eq, div_one]
    exact Int.floor_eq_zero_iff.2 ⟨by linarith, by linarith⟩
  have hrx1 : 3/2 ≤ (pos.x - g.origin.x) / g.cellSize := by
    rw [le_div_iff hc]
    linarith
  have hrx2 : (pos.x - g.origin.x) / g.cellSize ≤ (g.sizeX : ℚ) - 3/2 := by
    rw [div_le_iff hc]
    have e : ((g.sizeX : ℚ) - 3/2) * g.cellSize =
        (g.sizeX : ℚ) * g.cellSize - 3/2 * g.cellSize := by ring
    rw [e]
    linarith
  have hry1 : 3/2 ≤ (pos.y - g.origin.y) / g.cellSize := by
    rw [le_div_iff hc]
    linarith
  have hry2 : (pos.y - g.origin.y) / g.cellSize ≤ (g.sizeY : ℚ) - 3/2 := by
    rw [div_le_iff hc]
    have e : ((g.sizeY : ℚ) - 3/2) * g.cellSize =
        (g.sizeY : ℚ) * g.cellSize - 3/2 * g.cellSize := by ring
    rw [e]
    linarith
  have hbx := floor_margin _ g.sizeX hrx1 hrx2
  have hby := floor_margin _ g.sizeY hry1 hry2
  have hixl : 1 ≤ (g.cellPositionToIndex pos).x := by rw [e_ix]; exact hbx.1
  have hixu : (g.cellPositionToIndex pos).x ≤ g.sizeX - 2 := by
    rw [e_ix]; exact hbx.2
  have hiyl : 1 ≤ (g.cellPositionToIndex pos).y := by rw [e_iy]; exact hby.1
  have hiyu : (g.cellPositionToIndex pos).y ≤ g.sizeY - 2 := by
    rw [e_iy]; exact hby.2
  have hsz : g.sizeZ = 1 := h2
  have hval : ∀ dx dy : ℤ, -1 ≤ dx → dx ≤ 1 → -1 ≤ dy → dy ≤ 1 →
      g.isValidCellIndex ((g.cellPositionToIndex pos).x + dx)
        ((g.cellPositionToIndex pos).y + dy)
        ((g.cellPositionToIndex pos).z + 0) = true := by
    intro dx dy a b cc d
    rw [e_iz]
    exact isValidCellIndex_of_range g _ _ _ (by omega) (by omega) (by omega)
      (by omega) (by omega) (by omega)
  have hw : ∀ dx dy : ℤ, -1 ≤ dx → dx ≤ 1 → -1 ≤ dy → dy ≤ 1 →
      g.getWeight pos ⟨dx, dy, 0⟩ =
        getNQuadratic ((pos.x - g.origin.x) / g.cellSize -
          (((g.cellPositionToIndex pos).x : ℚ) + (dx : ℚ)) - 1/2) *
        getNQuadratic ((pos.y - g.origin.y) / g.cellSize -
          (((g.cellPositionToIndex pos).y : ℚ) + (dy : ℚ)) - 1/2) := by
    intro dx dy a b cc d
    rw [getWeight_valid_eq g pos ⟨dx, dy, 0⟩ hc' (hval dx dy a b cc d)]
    rw [if_pos h2, mul_one]
  set fx : ℚ := (pos.x - g.origin.x) / g.cellSize -
    ((g.cellPositionToIndex pos).x : ℚ) - 1/2 with hfx
  set fy : ℚ := (pos.y - g.origin.y) / g.cellSize -
    ((g.cellPositionToIndex pos).y : ℚ) - 1/2 with hfy
  have w_m1_m1 : g.getWeight pos ⟨-1, -1, 0⟩ =
      getNQuadratic (fx + 1) * getNQuadratic (fy + 1) := by
    rw [hw (-1) (-1) (by norm_num) (by norm_num) (by norm_num) (by norm_num)]
    congr 1
    · exact congrArg getNQuadratic (by rw [hfx]; push_cast; ring)
    · exact congrArg getNQuadratic (by rw [hfy]; push_cast; ring)
  have w_m1_0 : g.getWeight pos ⟨-1, 0, 0⟩ =
      getNQuadratic (fx + 1) * getNQuadratic fy := by
    rw [hw (-1) 0 (by norm_num) (by norm_num) (by norm_num) (by norm_num)]
    congr 1
    · exact congrArg getNQuadratic (by rw [hfx]; push_cast; ring)
    · exact congrArg getNQuadratic (by rw [hfy]; push_cast; ring)
  have w_m1_1 : g.getWeight pos ⟨-1, 1, 0⟩ =
      getNQuadratic (fx + 1) * getNQuadratic (fy - 1) := by
    rw [hw (-1) 1 (by norm_num) (by norm_num) (by norm_num) (by norm_num)]
    congr 1
    · exact congrArg getNQuadratic (by rw [hfx]; push_cast; ring)
    · exact congrArg getNQuadratic (by rw [hfy]; push_cast; ring)
  have w_0_m1 : g.getWeight pos ⟨0, -1, 0⟩ =
      getNQuadratic fx * getNQuadratic (fy + 1) := by
    rw [hw 0 (-1) (by norm_num) (by norm_num) (by norm_num) (by norm_num)]
    congr 1
    · exact congrArg getNQuadratic (by rw [hfx]; push_cast; ring)
    · exact congrArg getNQuadratic (by rw [hfy]; push_cast; ring)
  have w_0_0 : g.getWeight pos ⟨0, 0, 0⟩ =
      getNQuadratic fx * getNQuadratic fy := by
    rw [hw 0 0 (by norm_num) (by norm_num) (by norm_num) (by norm_num)]
    congr 1
    · exact congrArg getNQuadratic (by rw [hfx]; push_cast; ring)
    · exact congrArg getNQuadratic (by rw [hfy]; push_cast; ring)
  have w_0_1 : g.getWeight pos ⟨0, 1, 0⟩ =
      getNQuadratic fx * getNQuadratic (fy - 1) := by
    rw [hw 0 1 (by norm_num) (by norm_num) (by norm_num) (by norm_num)]
    congr 1
    · exact congrArg getNQuadratic (by rw [hfx]; push_cast; ring)
    · exact congrArg getNQuadratic (by rw [hfy]; push_cast; ring)
  have w_1_m1 : g.getWeight pos ⟨1, -1, 0⟩ =
      getNQuadratic (fx - 1) * getNQuadratic (fy + 1) := by
    rw [hw 1 (-1) (by norm_num) (by norm_num) (by norm_num) (by norm_num)]
    congr 1
    · exact congrArg getNQuadratic (by rw [hfx]; push_cast; ring)
    · exact congrArg getNQuadratic (by rw [hfy]; push_cast; ring)
  have w_1_0 : g.getWeight pos ⟨1, 0, 0⟩ =
      getNQuadratic (fx - 1) * getNQuadratic fy := by
    rw [hw 1 0 (by norm_num) (by norm_num) (by norm_num) (by norm_num)]
    congr 1
    · exact congrArg getNQuadratic (by rw [hfx]; push_cast; ring)
    · exact congrArg getNQuadratic (by rw [hfy]; push_cast; ring)
  have w_1_1 : g.getWeight pos ⟨1, 1, 0⟩ =
      getNQuadratic (fx - 1) * getNQuadratic (fy - 1) := by
    rw [hw 1 1 (by norm_num) (by norm_num) (by norm_num) (by norm_num)]
    congr 1
    · exact congrArg getNQuadratic (by rw [hfx]; push_cast; ring)
    · exact congrArg getNQuadratic (by rw [hfy]; push_cast; ring)
  have key : weightSum g pos =
      (getNQuadratic (fx + 1) + getNQuadratic fx + getNQuadratic (fx - 1)) *
      (getNQuadratic (fy + 1) + getNQuadratic fy + getNQuadratic (fy - 1)) := by
    simp only [weightSum, neighborDeltas_2d g h2, List.map_cons, List.map_nil,
      List.sum_cons, List.sum_nil, add_zero]
    rw [w_m1_m1, w_m1_0, w_m1_1, w_0_m1, w_0_0, w_0_1, w_1_m1, w_1_0, w_1_1]
    ring
  have hfxb : -(1/2) ≤ fx ∧ fx < 1/2 := by
    rw [hfx, e_ix]
    exact fract_offset _
  have hfyb : -(1/2) ≤ fy ∧ fy < 1/2 := by
    rw [hfy, e_iy]
    exact fract_offset _
  rw [key, sumN_core fx hfxb.1 hfxb.2, sumN_core fy hfyb.1 hfyb.2, one_mul]

/-- The 27 neighbor offsets of the P2G/G2P loops on a 3D grid. -/
theorem neighborDeltas_3d (g : Grid) (h : ¬g.is2D) :
    neighborDeltas g =
      [⟨-1, -1, -1⟩, ⟨-1, -1, 0⟩, ⟨-1, -1, 1⟩,
       ⟨-1, 0, -1⟩, ⟨-1, 0, 0⟩, ⟨-1, 0, 1⟩,
       ⟨-1, 1, -1⟩, ⟨-1, 1, 0⟩, ⟨-1, 1, 1⟩,
       ⟨0, -1, -1⟩, ⟨0, -1, 0⟩, ⟨0, -1, 1⟩,
       ⟨0, 0, -1⟩, ⟨0, 0, 0⟩, ⟨0, 0, 1⟩,
       ⟨0, 1, -1⟩, ⟨0, 1, 0⟩, ⟨0, 1, 1⟩,
       ⟨1, -1, -1⟩, ⟨1, -1, 0⟩, ⟨1, -1, 1⟩,
       ⟨1, 0, -1⟩, ⟨1, 0, 0⟩, ⟨1, 0, 1⟩,
       ⟨1, 1, -1⟩, ⟨1, 1, 0⟩, ⟨1, 1, 1⟩] := by
  unfold neighborDeltas
  rw [if_neg h]
  rfl

set_option maxHeartbeats 2000000 in
/-- Partition of unity for a 3D grid: the 27 kernel weights around a
position with a 1.5-cell margin on every axis sum to 1. -/
theorem weightSum_3d (g : Grid) (pos : Vec3) (hc : 0 < g.cellSize)
    (h3 : ¬g.is2D)
    (hx1 : g.origin.x + 3/2 * g.cellSize ≤ pos.x)
    (hx2 : pos.x ≤ g.origin.x + (g.sizeX : ℚ) * g.cellSize - 3/2 * g.cellSize)
    (hy1 : g.origin.y + 3/2 * g.cellSize ≤ pos.y)
    (hy2 : pos.y ≤ g.origin.y + (g.sizeY : ℚ) * g.cellSize - 3/2 * g.cellSize)
    (hz1 : g.origin.z + 3/2 * g.cellSize ≤ pos.z)
    (hz2 : pos.z ≤ g.origin.z + (g.sizeZ : ℚ) * g.cellSize - 3/2 * g.cellSize) :
    weightSum g pos = 1 := by
  have hc' : g.cellSize ≠ 0 := ne_of_gt hc
  have e_ix : (g.cellPositionToIndex pos).x =
      ⌊(pos.x - g.origin.x) / g.cellSize⌋ := by
    unfold Grid.cellPositionToIndex Vec3.sub Vec3.hdiv Grid.cellDimensions
    dsimp only
    rw [ratFloor_eq]
  have e_iy : (g.cellPositionToIndex pos).y =
      ⌊(pos.y - g.origin.y) / g.cellSize⌋ := by
    unfold Grid.cellPositionToIndex Vec3.sub Vec3.hdiv Grid.cellDimensions
    dsimp only
    rw [ratFloor_eq]
  have e_iz : (g.cellPositionToIndex pos).z =
      ⌊(pos.z - g.origin.z) / g.cellSize⌋ := by
    unfold Grid.cellPositionToIndex Vec3.sub Vec3.hdiv Grid.cellDimensions
    dsimp only
    rw [if_neg h3, ratFloor_eq]
  have hrx1 : 3/2 ≤ (pos.x - g.origin.x) / g.cellSize := by
    rw [le_div_iff hc]
    linarith
  have hrx2 : (pos.x - g.origin.x) / g.cellSize ≤ (g.sizeX : ℚ) - 3/2 := by
    rw [div_le_iff hc]
    have e : ((g.sizeX : ℚ) - 3/2) * g.cellSize =
        (g.sizeX : ℚ) * g.cellSize - 3/2 * g.cellSize := by ring
    rw [e]
    linarith
  have hry1 : 3/2 ≤ (pos.y - g.origin.y) / g.cellSize := by
    rw [le_div_iff hc]
    linarith
  have hry2 : (pos.y - g.origin.y) / g.cellSize ≤ (g.sizeY : ℚ) - 3/2 := by
    rw [div_le_iff hc]
    have e : ((g.sizeY : ℚ) - 3/2) * g.cellSize =
        (g.sizeY : ℚ) * g.cellSize - 3/2 * g.cellSize := by ring
    rw [e]
    linarith
  have hrz1 : 3/2 ≤ (pos.z - g.origin.z) / g.cellSize := by
    rw [le_div_iff hc]
    linarith
  have hrz2 : (pos.z - g.origin.z) / g.cellSize ≤ (g.sizeZ : ℚ) - 3/2 := by
    rw [div_le_iff hc]
    have e : ((g.sizeZ : ℚ) - 3/2) * g.cellSize =
        (g.sizeZ : ℚ) * g.cellSize - 3/2 * g.cellSize := by ring
    rw [e]
    linarith
  have hbx := floor_margin _ g.sizeX hrx1 hrx2
  have hby := floor_margin _ g.sizeY hry1 hry2
  have hbz := floor_margin _ g.sizeZ hrz1 hrz2
  have hixl : 1 ≤ (g.cellPositionToIndex pos).x := by rw [e_ix]; exact hbx.1
  have hixu : (g.cellPositionToIndex pos).x ≤ g.sizeX - 2 := by
    rw [e_ix]; exact hbx.2
  have hiyl : 1 ≤ (g.cellPositionToIndex pos).y := by rw [e_iy]; exact hby.1
  have hiyu : (g.cellPositionToIndex pos).y ≤ g.sizeY - 2 := by
    rw [e_iy]; exact hby.2
  have hizl : 1 ≤ (g.cellPositionToIndex pos).z := by rw [e_iz]; exact hbz.1
  have hizu : (g.cellPositionToIndex pos).z ≤ g.sizeZ - 2 := by
    rw [e_iz]; exact hbz.2
  have hval : ∀ dx dy dz : ℤ, -1 ≤ dx → dx ≤ 1 → -1 ≤ dy → dy ≤ 1 →
      -1 ≤ dz → dz ≤ 1 →
      g.isValidCellIndex ((g.cellPositionToIndex pos).x + dx)
        ((g.cellPositionToIndex pos).y + dy)
        ((g.cellPositionToIndex pos).z + dz) = true := by
    intro dx dy dz a b cc d e f
    exact isValidCellIndex_of_range g _ _ _ (by omega) (by omega) (by omega)
      (by omega) (by omega) (by omega)
  have hw : ∀ dx dy dz : ℤ, -1 ≤ dx → dx ≤ 1 → -1 ≤ dy → dy ≤ 1 →
      -1 ≤ dz → dz ≤ 1 →
      g.getWeight pos ⟨dx, dy, dz⟩ =
        getNQuadratic ((pos.x - g.origin.x) / g.cellSize -
          (((g.cellPositionToIndex pos).x : ℚ) + (dx : ℚ)) - 1/2) *
        getNQuadratic ((pos.y - g.origin.y) / g.cellSize -
          (((g.cellPositionToIndex pos).y : ℚ) + (dy : ℚ)) - 1/2) *
        getNQuadratic ((pos.z - g.origin.z) / g.cellSize -
          (((g.cellPositionToIndex pos).z : ℚ) + (dz : ℚ)) - 1/2) := by
    intro dx dy dz a b cc d e f
    rw [getWeight_valid_eq g pos ⟨dx, dy, dz⟩ hc' (hval dx dy dz a b cc d e f)]
    rw [if_neg h3]
  set fx : ℚ := (pos.x - g.origin.x) / g.cellSize -
    ((g.cellPositionToIndex pos).x : ℚ) - 1/2 with hfx
  set fy : ℚ := (pos.y - g.origin.y) / g.cellSize -
    ((g.cellPositionToIndex pos).y : ℚ) - 1/2 with hfy
  set fz : ℚ := (pos.z - g.origin.z) / g.cellSize -
    ((g.cellPositionToIndex pos).z : ℚ) - 1/2 with hfz
  have v_m1_m1_m1 : g.getWeight pos ⟨-1, -1, -1⟩ =
      getNQuadratic (fx + 1) * getNQuadratic (fy + 1) *
        getNQuadratic (fz + 1) := by
    rw [hw (-1) (-1) (-1) (by norm_num) (by norm_num) (by norm_num)
      (by norm_num) (by norm_num) (by norm_num)]
    congr 1
    · congr 1
      · exact congrArg getNQuadratic (by rw [hfx]; push_cast; ring)
      · exact congrArg getNQuadratic (by rw [hfy]; push_cast; ring)
    · exact congrArg getNQuadratic (by rw [hfz]; push_cast; ring)
  have v_m1_m1_0 : g.getWeight pos ⟨-1, -1, 0⟩ =
      getNQuadratic (fx + 1) * getNQuadratic (fy + 1) *
        getNQuadratic fz := by
    rw [hw (-1) (-1) 0 (by norm_num) (by norm_num) (by norm_num)
      (by norm_num) (by norm_num) (by norm_num)]
    congr 1
    · congr 1
      · exact congrArg getNQuadratic (by rw [hfx]; push_cast; ring)
      · exact congrArg getNQuadratic (by rw [hfy]; push_cast; ring)
    · exact congrArg getNQuadratic (by rw [hfz]; push_cast; ring)
  have v_m1_m1_1 : g.getWeight pos ⟨-1, -1, 1⟩ =
      getNQuadratic (fx + 1) * getNQuadratic (fy + 1) *
        getNQuadratic (fz - 1) := by
    rw [hw (-1) (-1) 1 (by norm_num) (by norm_num) (by norm_num)
      (by norm_num) (by norm_num) (by norm_num)]
    congr 1
    · congr 1
      · exact congrArg getNQuadratic (by rw [hfx]; push_cast; ring)
      · exact congrArg getNQuadratic (by rw [hfy]; push_cast; ring)
    · exact congrArg getNQuadratic (by rw [hfz]; push_cast; ring)
  have v_m1_0_m1 : g.getWeight pos ⟨-1, 0, -1⟩ =
      getNQuadratic (fx + 1) * getNQuadratic fy *
        getNQuadratic (fz + 1) := by
    rw [hw (-1) 0 (-1) (by norm_num) (by norm_num) (by norm_num)
      (by norm_num) (by norm_num) (by norm_num)]
    congr 1
    · congr 1
      · exact congrArg getNQuadratic (by rw [hfx]; push_cast; ring)
      · exact congrArg getNQuadratic (by rw [hfy]; push_cast; ring)
    · exact congrArg getNQuadratic (by rw [hfz]; push_cast; ring)
  have v_m1_0_0 : g.getWeight pos ⟨-1, 0, 0⟩ =
      getNQuadratic (fx + 1) * getNQuadratic fy *
        getNQuadratic fz := by
    rw [hw (-1) 0 0 (by norm_num) (by norm_num) (by norm_num)
      (by norm_num) (by norm_num) (by norm_num)]
    congr 1
    · congr 1
      · exact congrArg getNQuadratic (by rw [hfx]; push_cast; ring)
      · exact congrArg getNQuadratic (by rw [hfy]; push_cast; ring)
    · exact congrArg getNQuadratic (by rw [hfz]; push_cast; ring)
  have v_m1_0_1 : g.getWeight pos ⟨-1, 0, 1⟩ =
      getNQuadratic (fx + 1) * getNQuadratic fy *
        getNQuadratic (fz - 1) := by
    rw [hw (-1) 0 1 (by norm_num) (by norm_num) (by norm_num)
      (by norm_num) (by norm_num) (by norm_num)]
    congr 1
    · congr 1
      · exact congrArg getNQuadratic (by rw [hfx]; push_cast; ring)
      · exact congrArg getNQuadratic (by rw [hfy]; push_cast; ring)
    · exact congrArg getNQuadratic (by rw [hfz]; push_cast; ring)
  have v_m1_1_m1 : g.getWeight pos ⟨-1, 1, -1⟩ =
      getNQuadratic (fx + 1) * getNQuadratic (fy - 1) *
        getNQuadratic (fz + 1) := by
    rw [hw (-1) 1 (-1) (by norm_num) (by norm_num) (by norm_num)
      (by norm_num) (by norm_num) (by norm_num)]
    congr 1
    · congr 1
      · exact congrArg getNQuadratic (by rw [hfx]; push_cast; ring)
      · exact congrArg getNQuadratic (by rw [hfy]; push_cast; ring)
    · exact congrArg getNQuadratic (by rw [hfz]; push_cast; ring)
  have v_m1_1_0 : g.getWeight pos ⟨-1, 1, 0⟩ =
      getNQuadratic (fx + 1) * getNQuadratic (fy - 1) *
        getNQuadratic fz := by
    rw [hw (-1) 1 0 (by norm_num) (by norm_num) (by norm_num)
      (by norm_num) (by norm_num) (by norm_num)]
    congr 1
    · congr 1
      · exact congrArg getNQuadratic (by rw [hfx]; push_cast; ring)
      · exact congrArg getNQuadratic (by rw [hfy]; push_cast; ring)
    · exact congrArg getNQuadratic (by rw [hfz]; push_cast; ring)
  have v_m1_1_1 : g.getWeight pos ⟨-1, 1, 1⟩ =
      getNQuadratic (fx + 1) * getNQuadratic (fy - 1) *
        getNQuadratic (fz - 1) := by
    rw [hw (-1) 1 1 (by norm_num) (by norm_num) (by norm_num)
      (by norm_num) (by norm_num) (by norm_num)]
    congr 1
    · congr 1
      · exact congrArg getNQuadratic (by rw [hfx]; push_cast; ring)
      · exact congrArg getNQuadratic (by rw [hfy]; push_cast; ring)
    · exact congrArg getNQuadratic (by rw [hfz]; push_cast; ring)
  have v_0_m1_m1 : g.getWeight pos ⟨0, -1, -1⟩ =
      getNQuadratic fx * getNQuadratic (fy + 1) *
        getNQuadratic (fz + 1) := by
    rw [hw 0 (-1) (-1) (by norm_num) (by norm_num) (by norm_num)
      (by norm_num) (by norm_num) (by norm_num)]
    congr 1
    · congr 1
      · exact congrArg getNQuadratic (by rw [hfx]; push_cast; ring)
      · exact congrArg getNQuadratic (by rw [hfy]; push_cast; ring)
    · exact congrArg getNQuadratic (by rw [hfz]; push_cast; ring)
  have v_0_m1_0 : g.getWeight pos ⟨0, -1, 0⟩ =
      getNQuadratic fx * getNQuadratic (fy + 1) *
        getNQuadratic fz := by
    rw [hw 0 (-1) 0 (by norm_num) (by norm_num) (by norm_num)
      (by norm_num) (by norm_num) (by norm_num)]
    congr 1
    · congr 1
      · exact congrArg getNQuadratic (by rw [hfx]; push_cast; ring)
      · exact congrArg getNQuadratic (by rw [hfy]; push_cast; ring)
    · exact congrArg getNQuadratic (by rw [hfz]; push_cast; ring)
  have v_0_m1_1 : g.getWeight pos ⟨0, -1, 1⟩ =
      getNQuadratic fx * getNQuadratic (fy + 1) *
        getNQuadratic (fz - 1) := by
    rw [hw 0 (-1) 1 (by norm_num) (by norm_num) (by norm_num)
      (by norm_num) (by norm_num) (by norm_num)]
    congr 1
    · congr 1
      · exact congrArg getNQuadratic (by rw [hfx]; push_cast; ring)
      · exact congrArg getNQuadratic (by rw [hfy]; push_cast; ring)
    · exact congrArg getNQuadratic (by rw [hfz]; push_cast; ring)
  have v_0_0_m1 : g.getWeight pos ⟨0, 0, -1⟩ =
      getNQuadratic fx * getNQuadratic fy *
        getNQuadratic (fz + 1) := by
    rw [hw 0 0 (-1) (by norm_num) (by norm_num) (by norm_num)
      (by norm_num) (by norm_num) (by norm_num)]
    congr 1
    · congr 1
      · exact congrArg getNQuadratic (by rw [hfx]; push_cast; ring)
      · exact congrArg getNQuadratic (by rw [hfy]; push_cast; ring)
    · exact congrArg getNQuadratic (by rw [hfz]; push_cast; ring)
  have v_0_0_0 : g.getWeight pos ⟨0, 0, 0⟩ =
      getNQuadratic fx * getNQuadratic fy *
        getNQuadratic fz := by
    rw [hw 0 0 0 (by norm_num) (by norm_num) (by norm_num)
      (by norm_num) (by norm_num) (by norm_num)]
    congr 1
    · congr 1
      · exact congrArg getNQuadratic (by rw [hfx]; push_cast; ring)
      · exact congrArg getNQuadratic (by rw [hfy]; push_cast; ring)
    · exact congrArg getNQuadratic (by rw [hfz]; push_cast; ring)
  have v_0_0_1 : g.getWeight pos ⟨0, 0, 1⟩ =
      getNQuadratic fx * getNQuadratic fy *
        getNQuadratic (fz - 1) := by
    rw [hw 0 0 1 (by norm_num) (by norm_num) (by norm_num)
      (by norm_num) (by norm_num) (by norm_num)]
    congr 1
    · congr 1
      · exact congrArg getNQuadratic (by rw [hfx]; push_cast; ring)
      · exact congrArg getNQuadratic (by rw [hfy]; push_cast; ring)
    · exact congrArg getNQuadratic (by rw [hfz]; push_cast; ring)
  have v_0_1_m1 : g.getWeight pos ⟨0, 1, -1⟩ =
      getNQuadratic fx * getNQuadratic (fy - 1) *
        getNQuadratic (fz + 1) := by
    rw [hw 0 1 (-1) (by norm_num) (by norm_num) (by norm_num)
      (by norm_num) (by norm_num) (by norm_num)]
    congr 1
    · congr 1
      · exact congrArg getNQuadratic (by rw [hfx]; push_cast; ring)
      · exact congrArg getNQuadratic (by rw [hfy]; push_cast; ring)
    · exact congrArg getNQuadratic (by rw [hfz]; push_cast; ring)
  have v_0_1_0 : g.getWeight pos ⟨0, 1, 0⟩ =
      getNQuadratic fx * getNQuadratic (fy - 1) *
        getNQuadratic fz := by
    rw [hw 0 1 0 (by norm_num) (by norm_num) (by norm_num)
      (by norm_num) (by norm_num) (by norm_num)]
    congr 1
    · congr 1
      · exact congrArg getNQuadratic (by rw [hfx]; push_cast; ring)
      · exact congrArg getNQuadratic (by rw [hfy]; push_cast; ring)
    · exact congrArg getNQuadratic (by rw [hfz]; push_cast; ring)
  have v_0_1_1 : g.getWeight pos ⟨0, 1, 1⟩ =
      getNQuadratic fx * getNQuadratic (fy - 1) *
        getNQuadratic (fz - 1) := by
    rw [hw 0 1 1 (by norm_num) (by norm_num) (by norm_num)
      (by norm_num) (by norm_num) (by norm_num)]
    congr 1
    · congr 1
      · exact congrArg getNQuadratic (by rw [hfx]; push_cast; ring)
      · exact congrArg getNQuadratic (by rw [hfy]; push_cast; ring)
    · exact congrArg getNQuadratic (by rw [hfz]; push_cast; ring)
  have v_1_m1_m1 : g.getWeight pos ⟨1, -1, -1⟩ =
      getNQuadratic (fx - 1) * getNQuadratic (fy + 1) *
        getNQuadratic (fz + 1) := by
    rw [hw 1 (-1) (-1) (by norm_num) (by norm_num) (by norm_num)
      (by norm_num) (by norm_num) (by norm_num)]
    congr 1
    · congr 1
      · exact congrArg getNQuadratic (by rw [hfx]; push_cast; ring)
      · exact congrArg getNQuadratic (by rw [hfy]; push_cast; ring)
    · exact congrArg getNQuadratic (by rw [hfz]; push_cast; ring)
  have v_1_m1_0 : g.getWeight pos ⟨1, -1, 0⟩ =
      getNQuadratic (fx - 1) * getNQuadratic (fy + 1) *
        getNQuadratic fz := by
    rw [hw 1 (-1) 0 (by norm_num) (by norm_num) (by norm_num)
      (by norm_num) (by norm_num) (by norm_num)]
    congr 1
    · congr 1
      · exact congrArg getNQuadratic (by rw [hfx]; push_cast; ring)
      · exact congrArg getNQuadratic (by rw [hfy]; push_cast; ring)
    · exact congrArg getNQuadratic (by rw [hfz]; push_cast; ring)
  have v_1_m1_1 : g.getWeight pos ⟨1, -1, 1⟩ =
      getNQuadratic (fx - 1) * getNQuadratic (fy + 1) *
        getNQuadratic (fz - 1) := by
    rw [hw 1 (-1) 1 (by norm_num) (by norm_num) (by norm_num)
      (by norm_num) (by norm_num) (by norm_num)]
    congr 1
    · congr 1
      · exact congrArg getNQuadratic (by rw [hfx]; push_cast; ring)
      · exact congrArg getNQuadratic (by rw [hfy]; push_cast; ring)
    · exact congrArg getNQuadratic (by rw [hfz]; push_cast; ring)
  have v_1_0_m1 : g.getWeight pos ⟨1, 0, -1⟩ =
      getNQuadratic (fx - 1) * getNQuadratic fy *
        getNQuadratic (fz + 1) := by
    rw [hw 1 0 (-1) (by norm_num) (by norm_num) (by norm_num)
      (by norm_num) (by norm_num) (by norm_num)]
    congr 1
    · congr 1
      · exact congrArg getNQuadratic (by rw [hfx]; push_cast; ring)
      · exact congrArg getNQuadratic (by rw [hfy]; push_cast; ring)
    · exact congrArg getNQuadratic (by rw [hfz]; push_cast; ring)
  have v_1_0_0 : g.getWeight pos ⟨1, 0, 0⟩ =
      getNQuadratic (fx - 1) * getNQuadratic fy *
        getNQuadratic fz := by
    rw [hw 1 0 0 (by norm_num) (by norm_num) (by norm_num)
      (by norm_num) (by norm_num) (by norm_num)]
    congr 1
    · congr 1
      · exact congrArg getNQuadratic (by rw [hfx]; push_cast; ring)
      · exact congrArg getNQuadratic (by rw [hfy]; push_cast; ring)
    · exact congrArg getNQuadratic (by rw [hfz]; push_cast; ring)
  have v_1_0_1 : g.getWeight pos ⟨1, 0, 1⟩ =
      getNQuadratic (fx - 1) * getNQuadratic fy *
        getNQuadratic (fz - 1) := by
    rw [hw 1 0 1 (by norm_num) (by norm_num) (by norm_num)
      (by norm_num) (by norm_num) (by norm_num)]
    congr 1
    · congr 1
      · exact congrArg getNQuadratic (by rw [hfx]; push_cast; ring)
      · exact congrArg getNQuadratic (by rw [hfy]; push_cast; ring)
    · exact congrArg getNQuadratic (by rw [hfz]; push_cast; ring)
  have v_1_1_m1 : g.getWeight pos ⟨1, 1, -1⟩ =
      getNQuadratic (fx - 1) * getNQuadratic (fy - 1) *
        getNQuadratic (fz + 1) := by
    rw [hw 1 1 (-1) (by norm_num) (by norm_num) (by norm_num)
      (by norm_num) (by norm_num) (by norm_num)]
    congr 1
    · congr 1
      · exact congrArg getNQuadratic (by rw [hfx]; push_cast; ring)
      · exact congrArg getNQuadratic (by rw [hfy]; push_cast; ring)
    · exact congrArg getNQuadratic (by rw [hfz]; push_cast; ring)
  have v_1_1_0 : g.getWeight pos ⟨1, 1, 0⟩ =
      getNQuadratic (fx - 1) * getNQuadratic (fy - 1) *
        getNQuadratic fz := by
    rw [hw 1 1 0 (by norm_num) (by norm_num) (by norm_num)
      (by norm_num) (by norm_num) (by norm_num)]
    congr 1
    · congr 1
      · exact congrArg getNQuadratic (by rw [hfx]; push_cast; ring)
      · exact congrArg getNQuadratic (by rw [hfy]; push_cast; ring)
    · exact congrArg getNQuadratic (by rw [hfz]; push_cast; ring)
  have v_1_1_1 : g.getWeight pos ⟨1, 1, 1⟩ =
      getNQuadratic (fx - 1) * getNQuadratic (fy - 1) *
        getNQuadratic (fz - 1) := by
    rw [hw 1 1 1 (by norm_num) (by norm_num) (by norm_num)
      (by norm_num) (by norm_num) (by norm_num)]
    congr 1
    · congr 1
      · exact congrArg getNQuadratic (by rw [hfx]; push_cast; ring)
      · exact congrArg getNQuadratic (by rw [hfy]; push_cast; ring)
    · exact congrArg getNQuadratic (by rw [hfz]; push_cast; ring)
  have key : weightSum g pos =
      (getNQuadratic (fx + 1) + getNQuadratic fx + getNQuadratic (fx - 1)) *
      (getNQuadratic (fy + 1) + getNQuadratic fy + getNQuadratic (fy - 1)) *
      (getNQuadratic (fz + 1) + getNQuadratic fz + getNQuadratic (fz - 1)) := by
    simp only [weightSum, neighborDeltas_3d g h3, List.map_cons, List.map_nil,
      List.sum_cons, List.sum_nil, add_zero]
    rw [v_m1_m1_m1, v_m1_m1_0, v_m1_m1_1, v_m1_0_m1, v_m1_0_0, v_m1_0_1, v_m1_1_m1, v_m1_1_0, v_m1_1_1]
    rw [v_0_m1_m1, v_0_m1_0, v_0_m1_1, v_0_0_m1, v_0_0_0, v_0_0_1, v_0_1_m1, v_0_1_0, v_0_1_1]
    rw [v_1_m1_m1, v_1_m1_0, v_1_m1_1, v_1_0_m1, v_1_0_0, v_1_0_1, v_1_1_m1, v_1_1_0, v_1_1_1]
    ring
  have hfxb : -(1/2) ≤ fx ∧ fx < 1/2 := by
    rw [hfx, e_ix]
    exact fract_offset _
  have hfyb : -(1/2) ≤ fy ∧ fy < 1/2 := by
    rw [hfy, e_iy]
    exact fract_offset _
  have hfzb : -(1/2) ≤ fz ∧ fz < 1/2 := by
    rw [hfz, e_iz]
    exact fract_offset _
  rw [key, sumN_core fx hfxb.1 hfxb.2, sumN_core fy hfyb.1 hfyb.2,
    sumN_core fz hfzb.1 hfzb.2, one_mul, one_mul]

/-- C9, amended: for a position at least 1.5 cell widths from every grid
boundary on every active axis — and, on a 2D grid, with its z coordinate
inside the grid's single-cell-deep layer `[origin.z, origin.z + 1)` (the
claim's original statement put no constraint on z in 2D, but a z outside
the layer makes every neighbor's flat index invalid and the sum 0) — the
sum of `getWeight` over all 9 (2D) or 27 (3D) neighbor offsets equals 1. -/
theorem claim9_partition (g : Grid) (pos : Vec3) (hc : 0 < g.cellSize)
    (hx1 : g.origin.x + 3/2 * g.cellSize ≤ pos.x)
    (hx2 : pos.x ≤ g.origin.x + (g.sizeX : ℚ) * g.cellSize - 3/2 * g.cellSize)
    (hy1 : g.origin.y + 3/2 * g.cellSize ≤ pos.y)
    (hy2 : pos.y ≤ g.origin.y + (g.sizeY : ℚ) * g.cellSize - 3/2 * g.cellSize)
    (hz : if g.is2D then g.origin.z ≤ pos.z ∧ pos.z < g.origin.z + 1
      else g.origin.z + 3/2 * g.cellSize ≤ pos.z ∧
        pos.z ≤ g.origin.z + (g.sizeZ : ℚ) * g.cellSize - 3/2 * g.cellSize) :
    weightSum g pos = 1 := by
  by_cases h2 : g.is2D
  · rw [if_pos h2] at hz
    exact weightSum_2d g pos hc h2 hx1 hx2 hy1 hy2 hz.1 hz.2
  · rw [if_neg h2] at hz
    exact weightSum_3d g pos hc h2 hx1 hx2 hy1 hy2 hz.1 hz.2

section

attribute [local semireducible] Rat.mul Rat.add Rat.sub Rat.inv

/-- C9, counterexample: on the 2D grid `gridA` the position `(2, 2, 5)`
satisfies the claim's margin condition on both active axes, yet the weight
sum is 0, not 1 — its z coordinate puts the flattened index of every
neighbor out of range. -/
theorem claim9_counterexample :
    gridA.is2D ∧
    gridA.origin.x + 3/2 * gridA.cellSize ≤ (2 : ℚ) ∧
    (2 : ℚ) ≤ gridA.origin.x + (gridA.sizeX : ℚ) * gridA.cellSize -
      3/2 * gridA.cellSize ∧
    gridA.origin.y + 3/2 * gridA.cellSize ≤ (2 : ℚ) ∧
    (2 : ℚ) ≤ gridA.origin.y + (gridA.sizeY : ℚ) * gridA.cellSize -
      3/2 * gridA.cellSize ∧
    weightSum gridA ⟨2, 2, 5⟩ = 0 ∧ (0 : ℚ) ≠ 1 := by
  decide

/-- Witness for C9 on `grid8` at the interior position `(4, 4, 1/2)`. -/
theorem claim9_witness :
    (0 : ℚ) < grid8.cellSize ∧ weightSum grid8 ⟨4, 4, 1/2⟩ = 1 :=
  ⟨by decide,
   claim9_partition grid8 ⟨4, 4, 1/2⟩ (by decide) (by decide) (by decide)
     (by decide) (by decide) (by decide)⟩

end
